import Mathlib

/-!
Verification of the sensor-service event dispatch engine
(services/sensorservice/SensorService.cpp) against its specification.

The C++ code is shallowly embedded: machine integers become `Int`/`Nat`
with explicit truncation where the code truncates, container classes
become lists and functions, and external collaborators (HAL, package
manager, RNG, HMAC primitive) become explicit parameters.
-/

namespace SensorServiceModel

/-! ### Machine-integer helpers -/

/-- Truncation of a mathematical integer to a signed 32-bit `int`,
as performed by a narrowing conversion in C (two's complement wrap). -/
def toInt32 (x : Int) : Int := (x + 2 ^ 31) % 2 ^ 32 - 2 ^ 31

theorem toInt32_eq_self {x : Int} (h1 : -2 ^ 31 ≤ x) (h2 : x < 2 ^ 31) :
    toInt32 x = x := by
  unfold toInt32
  have h0 : (0 : Int) ≤ x + 2 ^ 31 := by omega
  have hlt : x + 2 ^ 31 < 2 ^ 32 := by omega
  rw [Int.emod_eq_of_lt h0 hlt]
  omega

/-- Interpretation of an unsigned 32-bit value as a signed 32-bit integer
(the effect of `memcpy` into an `int32_t`). -/
def toSigned32 (v : Nat) : Int := if v < 2 ^ 31 then (v : Int) else (v : Int) - 2 ^ 32

/-! ### Events

`sensors_event_t`, restricted to the fields the verified code reads:
`sensor` (handle), `type`, `timestamp`, `version` and, for meta-data
events, `meta_data.sensor`. -/

structure SensorsEvent where
  sensor : Int
  type : Int
  timestamp : Int
  version : Int
  metaDataSensor : Int
  deriving DecidableEq, Repr

def SENSOR_TYPE_META_DATA : Int := 0
def SENSOR_TYPE_DYNAMIC_SENSOR_META : Int := 32
def SENSOR_TYPE_ADDITIONAL_INFO : Int := 33

/-- `sizeof(sensors_event_t)`: the `version` field of a well-formed event. -/
def EVENT_VERSION : Int := 104

/-! ### C1: SensorService::sortEventBuffer

The comparator passed to `qsort` returns
`l->timestamp - r->timestamp` through a C `int` return type: the 64-bit
difference is truncated to 32 bits. -/

/-- The `compar::cmp` function of `SensorService::sortEventBuffer`:
`return l->timestamp - r->timestamp;` with return type `int`. -/
def sortEventBufferCmp (l r : SensorsEvent) : Int :=
  toInt32 (l.timestamp - r.timestamp)

/-- `qsort` keeps `l` no later than `r` whenever the comparator is ≤ 0. -/
def cmpKeepsOrder (l r : SensorsEvent) : Bool :=
  decide (sortEventBufferCmp l r ≤ 0)

/-- One insertion step of a comparison sort driven by the comparator. -/
def sortInsert (a : SensorsEvent) : List SensorsEvent → List SensorsEvent
  | [] => [a]
  | b :: l => if cmpKeepsOrder a b then a :: b :: l else b :: sortInsert a l

/-- `SensorService::sortEventBuffer`: comparison sort of the event buffer
by `compar::cmp` (modelled as an insertion sort; any comparison sort
agrees with it up to reordering of comparator-equal elements). -/
def sortEventBuffer : List SensorsEvent → List SensorsEvent
  | [] => []
  | a :: l => sortInsert a (sortEventBuffer l)

/-- Non-decreasing in the actual 64-bit timestamp field. -/
def sortedByTimestamp (l : List SensorsEvent) : Prop :=
  l.Pairwise (fun a b => a.timestamp ≤ b.timestamp)

instance (l : List SensorsEvent) : Decidable (sortedByTimestamp l) := by
  unfold sortedByTimestamp; infer_instance

theorem sortInsert_perm (a : SensorsEvent) (l : List SensorsEvent) :
    (sortInsert a l).Perm (a :: l) := by
  induction l with
  | nil => simp [sortInsert]
  | cons b l ih =>
      by_cases h : cmpKeepsOrder a b
      · simp [sortInsert, h]
      · simp only [sortInsert, if_neg h]
        exact (ih.cons b).trans (List.Perm.swap a b l)

theorem sortEventBuffer_perm (l : List SensorsEvent) :
    (sortEventBuffer l).Perm l := by
  induction l with
  | nil => simp [sortEventBuffer]
  | cons a l ih =>
      exact (sortInsert_perm a (sortEventBuffer l)).trans (ih.cons a)

theorem mem_sortInsert {x a : SensorsEvent} {l : List SensorsEvent} :
    x ∈ sortInsert a l ↔ x = a ∨ x ∈ l := by
  rw [(sortInsert_perm a l).mem_iff]; simp

/-- When the timestamp difference fits in a signed 32-bit int, the
comparator agrees with the true timestamp order. -/
theorem cmpKeepsOrder_agrees {a b : SensorsEvent}
    (h : |a.timestamp - b.timestamp| < 2 ^ 31) :
    cmpKeepsOrder a b = true ↔ a.timestamp ≤ b.timestamp := by
  have habs := abs_lt.mp h
  unfold cmpKeepsOrder sortEventBufferCmp
  rw [toInt32_eq_self (by omega) (by omega)]
  simp only [decide_eq_true_eq]
  omega

theorem pairwise_sortInsert {a : SensorsEvent} {l : List SensorsEvent}
    (hl : l.Pairwise (fun x y => x.timestamp ≤ y.timestamp))
    (hagree : ∀ b ∈ l, cmpKeepsOrder a b = true ↔ a.timestamp ≤ b.timestamp) :
    (sortInsert a l).Pairwise (fun x y => x.timestamp ≤ y.timestamp) := by
  induction l with
  | nil => simp [sortInsert]
  | cons b l ih =>
      rcases List.pairwise_cons.mp hl with ⟨hb, hl'⟩
      by_cases h : cmpKeepsOrder a b
      · simp only [sortInsert, if_pos h]
        have hab : a.timestamp ≤ b.timestamp :=
          (hagree b (by simp)).mp h
        refine List.pairwise_cons.mpr ⟨?_, hl⟩
        intro x hx
        rcases List.mem_cons.mp hx with rfl | hx
        · exact hab
        · exact le_trans hab (hb x hx)
      · simp only [sortInsert, if_neg h]
        have hba : b.timestamp ≤ a.timestamp := by
          have := (hagree b (by simp)).not
          have hnot : ¬ a.timestamp ≤ b.timestamp := by
            intro hle
            exact h (((hagree b (by simp))).mpr hle)
          omega
        refine List.pairwise_cons.mpr ⟨?_, ?_⟩
        · intro x hx
          rcases mem_sortInsert.mp hx with rfl | hx
          · exact hba
          · exact hb x hx
        · exact ih hl' (fun c hc => hagree c (by simp [hc]))

theorem pairwise_sortEventBuffer {l : List SensorsEvent}
    (hb : ∀ a ∈ l, ∀ b ∈ l, |a.timestamp - b.timestamp| < 2 ^ 31) :
    sortedByTimestamp (sortEventBuffer l) := by
  induction l with
  | nil => simp [sortEventBuffer, sortedByTimestamp]
  | cons a l ih =>
      unfold sortedByTimestamp at *
      simp only [sortEventBuffer]
      refine pairwise_sortInsert (ih ?_) ?_
      · intro x hx y hy
        exact hb x (by simp [hx]) y (by simp [hy])
      · intro c hc
        have hcl : c ∈ l := (sortEventBuffer_perm l).mem_iff.mp hc
        exact cmpKeepsOrder_agrees (hb a (by simp) c (by simp [hcl]))

/-- C1 counterexample input: two events with valid 64-bit timestamps
`2^31` and `0`.  The comparator truncates `2^31 - 0` to `-2^31`, so the
sort believes the pair is already in order and leaves the buffer
unsorted by timestamp. -/
theorem C1_counterexample :
    (∀ e ∈ [SensorsEvent.mk 1 1 (2 ^ 31) 104 0, SensorsEvent.mk 1 1 0 104 0],
        -2 ^ 63 ≤ e.timestamp ∧ e.timestamp < 2 ^ 63) ∧
    ¬ sortedByTimestamp
        (sortEventBuffer
          [SensorsEvent.mk 1 1 (2 ^ 31) 104 0, SensorsEvent.mk 1 1 0 104 0]) := by
  decide

/-- C1 (amended): `sortEventBuffer` always returns a permutation of the
buffer, and the result is sorted ascending by timestamp whenever every
pairwise timestamp difference in the batch fits in a signed 32-bit int
(2^31 ns ≈ 2.1 s, which holds for the closely spaced timestamps of one
HAL poll batch but not for arbitrary 64-bit timestamps). -/
theorem C1_theorem (l : List SensorsEvent)
    (hb : ∀ a ∈ l, ∀ b ∈ l, |a.timestamp - b.timestamp| < 2 ^ 31) :
    (sortEventBuffer l).Perm l ∧ sortedByTimestamp (sortEventBuffer l) :=
  ⟨sortEventBuffer_perm l, pairwise_sortEventBuffer hb⟩

theorem C1_witness :
    (sortEventBuffer
        [SensorsEvent.mk 1 1 300 104 0, SensorsEvent.mk 2 1 100 104 0]).Perm
        [SensorsEvent.mk 1 1 300 104 0, SensorsEvent.mk 2 1 100 104 0] ∧
    sortedByTimestamp
      (sortEventBuffer
        [SensorsEvent.mk 1 1 300 104 0, SensorsEvent.mk 2 1 100 104 0]) :=
  C1_theorem
    [SensorsEvent.mk 1 1 300 104 0, SensorsEvent.mk 2 1 100 104 0]
    (by decide)

/-! ### C2: SensorService::getIdFromUuid

The 16-byte uuid is read through `uuid.i64[0]` / `uuid.i64[1]`
(little-endian 64-bit words), the caller uid is appended as 4
little-endian bytes, and the first 4 bytes of the HMAC output are
`memcpy`-ed into an `int32_t`.  The HMAC-SHA256 primitive itself is an
external library call (BoringSSL) and is a parameter of the embedding;
`keyValid` mirrors `sHmacGlobalKeyIsValid` and `hmacOk` the null-check
on the `HMAC` return value. -/

/-- Little-endian value of a byte list. -/
def lePack : List Nat → Nat
  | [] => 0
  | b :: bs => b + 256 * lePack bs

/-- The four little-endian bytes of a 32-bit `uid_t` as appended by
`memcpy(uuidAndApp + sizeof(uuid), &appUserId, sizeof(appUserId))`. -/
def uidBytes (uid : Nat) : List Nat :=
  [uid % 256, uid / 256 % 256, uid / 256 ^ 2 % 256, uid / 256 ^ 3 % 256]

/-- The final `if (id == -1) id = -2; else if (id == 0) id = 1;` step. -/
def remapSentinels (id : Int) : Int :=
  if id = -1 then -2 else if id = 0 then 1 else id

/-- `SensorService::getIdFromUuid`. -/
def getIdFromUuid (hmac : List Nat → List Nat) (keyValid hmacOk : Bool)
    (uuid : List Nat) (callerUid : Nat) : Int :=
  if lePack (uuid.take 8) = 0 ∧ lePack (uuid.drop 8) = 0 then 0
  else if lePack (uuid.take 8) = 2 ^ 64 - 1 ∧ lePack (uuid.drop 8) = 2 ^ 64 - 1 then
    -1
  else if keyValid = false then 0
  else if hmacOk = false then 0
  else if (hmac (uuid ++ uidBytes callerUid)).length < 4 then 0
  else
    remapSentinels (toSigned32 (lePack ((hmac (uuid ++ uidBytes callerUid)).take 4)))

theorem lePack_eq_zero {bs : List Nat} : lePack bs = 0 ↔ ∀ b ∈ bs, b = 0 := by
  induction bs with
  | nil => simp [lePack]
  | cons b bs ih =>
      simp only [lePack, List.mem_cons]
      constructor
      · intro h
        have hb : b = 0 := by omega
        have hr : lePack bs = 0 := by omega
        intro x hx
        rcases hx with rfl | hx
        · exact hb
        · exact ih.mp hr x hx
      · intro h
        have hb : b = 0 := h b (Or.inl rfl)
        have hr : lePack bs = 0 := ih.mpr (fun x hx => h x (Or.inr hx))
        omega

theorem lePack_lt {bs : List Nat} (h : ∀ b ∈ bs, b < 256) :
    lePack bs < 256 ^ bs.length := by
  induction bs with
  | nil => simp [lePack]
  | cons b bs ih =>
      simp only [lePack, List.length_cons, pow_succ]
      have hb : b < 256 := h b (by simp)
      have hr : lePack bs < 256 ^ bs.length := ih (fun x hx => h x (by simp [hx]))
      calc b + 256 * lePack bs < 256 + 256 * lePack bs := by omega
        _ ≤ 256 * 256 ^ bs.length := by omega
        _ = 256 ^ bs.length * 256 := by ring

theorem lePack_eq_max {bs : List Nat} (h : ∀ b ∈ bs, b < 256) :
    lePack bs = 256 ^ bs.length - 1 ↔ ∀ b ∈ bs, b = 255 := by
  induction bs with
  | nil => simp [lePack]
  | cons b bs ih =>
      simp only [lePack, List.length_cons, pow_succ, List.mem_cons]
      have hb : b < 256 := h b (by simp)
      have hr : lePack bs < 256 ^ bs.length :=
        lePack_lt (fun x hx => h x (by simp [hx]))
      have hq : 1 ≤ 256 ^ bs.length := Nat.one_le_pow _ _ (by omega)
      have ihr := ih (fun x hx => h x (by simp [hx]))
      constructor
      · intro heq
        have h255 : b = 255 ∧ lePack bs = 256 ^ bs.length - 1 := by
          constructor <;> omega
        intro x hx
        rcases hx with rfl | hx
        · exact h255.1
        · exact ihr.mp h255.2 x hx
      · intro hall
        have hb255 : b = 255 := hall b (Or.inl rfl)
        have hrest : lePack bs = 256 ^ bs.length - 1 :=
          ihr.mpr (fun x hx => hall x (Or.inr hx))
        omega

theorem remapSentinels_ne :
    ∀ id : Int, remapSentinels id ≠ 0 ∧ remapSentinels id ≠ -1 := by
  intro id
  unfold remapSentinels
  split_ifs with h1 h2 <;> omega

/-- C2: the sentinel branches of `getIdFromUuid` and, with a valid key,
the HMAC-derived id with sentinel remapping; the result is never 0 and
never −1 for a non-sentinel uuid. -/
theorem C2_theorem (hmac : List Nat → List Nat) (keyValid hmacOk : Bool)
    (uuid : List Nat) (callerUid : Nat)
    (hlen : uuid.length = 16) (hbytes : ∀ b ∈ uuid, b < 256) :
    ((∀ b ∈ uuid, b = 0) →
      getIdFromUuid hmac keyValid hmacOk uuid callerUid = 0) ∧
    ((∀ b ∈ uuid, b = 255) →
      getIdFromUuid hmac keyValid hmacOk uuid callerUid = -1) ∧
    (keyValid = true → hmacOk = true →
      4 ≤ (hmac (uuid ++ uidBytes callerUid)).length →
      ¬ (∀ b ∈ uuid, b = 0) → ¬ (∀ b ∈ uuid, b = 255) →
      getIdFromUuid hmac keyValid hmacOk uuid callerUid =
        remapSentinels
          (toSigned32 (lePack ((hmac (uuid ++ uidBytes callerUid)).take 4))) ∧
      getIdFromUuid hmac keyValid hmacOk uuid callerUid ≠ 0 ∧
      getIdFromUuid hmac keyValid hmacOk uuid callerUid ≠ -1) := by
  have htlen : (uuid.take 8).length = 8 := by
    rw [List.length_take]; omega
  have hdlen : (uuid.drop 8).length = 8 := by
    rw [List.length_drop]; omega
  have htb : ∀ b ∈ uuid.take 8, b < 256 :=
    fun b hb => hbytes b (List.mem_of_mem_take hb)
  have hdb : ∀ b ∈ uuid.drop 8, b < 256 :=
    fun b hb => hbytes b (List.mem_of_mem_drop hb)
  have hsplit : uuid.take 8 ++ uuid.drop 8 = uuid := List.take_append_drop 8 uuid
  refine ⟨?_, ?_, ?_⟩
  · intro hall
    have h1 : lePack (uuid.take 8) = 0 :=
      lePack_eq_zero.mpr (fun b hb => hall b (List.mem_of_mem_take hb))
    have h2 : lePack (uuid.drop 8) = 0 :=
      lePack_eq_zero.mpr (fun b hb => hall b (List.mem_of_mem_drop hb))
    unfold getIdFromUuid
    rw [if_pos ⟨h1, h2⟩]
  · intro hall
    have h1 : lePack (uuid.take 8) = 2 ^ 64 - 1 := by
      have := (lePack_eq_max htb).mpr (fun b hb => hall b (List.mem_of_mem_take hb))
      rw [htlen] at this
      norm_num at this ⊢
      exact this
    have h2 : lePack (uuid.drop 8) = 2 ^ 64 - 1 := by
      have := (lePack_eq_max hdb).mpr (fun b hb => hall b (List.mem_of_mem_drop hb))
      rw [hdlen] at this
      norm_num at this ⊢
      exact this
    have hz : ¬ (lePack (uuid.take 8) = 0 ∧ lePack (uuid.drop 8) = 0) := by
      rw [h1]; norm_num
    unfold getIdFromUuid
    rw [if_neg hz, if_pos ⟨h1, h2⟩]
  · intro hkey hok hhash hnz hno
    have hz : ¬ (lePack (uuid.take 8) = 0 ∧ lePack (uuid.drop 8) = 0) := by
      intro ⟨h1, h2⟩
      apply hnz
      intro b hb
      rw [← hsplit] at hb
      rcases List.mem_append.mp hb with hb | hb
      · exact lePack_eq_zero.mp h1 b hb
      · exact lePack_eq_zero.mp h2 b hb
    have ho : ¬ (lePack (uuid.take 8) = 2 ^ 64 - 1 ∧
        lePack (uuid.drop 8) = 2 ^ 64 - 1) := by
      intro ⟨h1, h2⟩
      apply hno
      intro b hb
      rw [← hsplit] at hb
      rcases List.mem_append.mp hb with hb | hb
      · refine (lePack_eq_max htb).mp ?_ b hb
        rw [htlen]; norm_num at h1 ⊢; exact h1
      · refine (lePack_eq_max hdb).mp ?_ b hb
        rw [hdlen]; norm_num at h2 ⊢; exact h2
    have hkv : ¬ keyValid = false := by rw [hkey]; simp
    have hov : ¬ hmacOk = false := by rw [hok]; simp
    have hhl : ¬ (hmac (uuid ++ uidBytes callerUid)).length < 4 := by omega
    unfold getIdFromUuid
    rw [if_neg hz, if_neg ho, if_neg hkv, if_neg hov, if_neg hhl]
    exact ⟨rfl, remapSentinels_ne _⟩

theorem C2_witness :
    getIdFromUuid (fun _ => List.replicate 32 0) true true
        (List.replicate 16 1) 7 ≠ 0 ∧
    getIdFromUuid (fun _ => List.replicate 32 0) true true
        (List.replicate 16 1) 7 ≠ -1 :=
  ((C2_theorem (fun _ => List.replicate 32 0) true true
      (List.replicate 16 1) 7 (by decide) (by decide)).2.2
    rfl rfl (by decide) (by decide) (by decide)).2

/-! ### Operating modes and status codes -/

inductive OperatingMode
  | NORMAL
  | DATA_INJECTION
  | RESTRICTED
  | REPLAY_DATA_INJECTION
  | HAL_BYPASS_REPLAY_DATA_INJECTION
  deriving DecidableEq, Repr

/-- The `status_t` values the modelled code returns (`OK == NO_ERROR`). -/
inductive Status
  | NO_ERROR
  | UNKNOWN_ERROR
  | BAD_VALUE
  | INVALID_OPERATION
  | PERMISSION_DENIED
  deriving DecidableEq, Repr

/-- `SensorService::isInjectionMode`. -/
def isInjectionMode : OperatingMode → Bool
  | .DATA_INJECTION | .REPLAY_DATA_INJECTION | .HAL_BYPASS_REPLAY_DATA_INJECTION => true
  | _ => false

/-! ### C10: SensorService::isAllowListedPackage

`String8::contains` is `strstr`: substring containment, with the empty
needle matching everything. -/

/-- Bool test that `pat` is a prefix of `hay`. -/
def listStartsWith : List Char → List Char → Bool
  | [], _ => true
  | _ :: _, [] => false
  | a :: as, b :: bs => if a = b then listStartsWith as bs else false

/-- `strstr(hay, needle) != nullptr`. -/
def strstrContains : List Char → List Char → Bool
  | hay, needle =>
    match hay with
    | [] => listStartsWith needle []
    | c :: t => if listStartsWith needle (c :: t) then true else strstrContains t needle

/-- `SensorService::isAllowListedPackage`:
`packageName.contains(mAllowListedPackage.c_str())`. -/
def isAllowListedPackage (allowListedPackage packageName : List Char) : Bool :=
  strstrContains packageName allowListedPackage

/-- Substring containment as a proposition. -/
def isSubstringOf (needle hay : List Char) : Prop :=
  ∃ pre post, hay = pre ++ needle ++ post

/-- The Restricted-mode gate of `SensorService::enable`: `true` means
the enable request is rejected with `INVALID_OPERATION`. -/
def enableModeGateBlocks (mode : OperatingMode)
    (allowListedPackage pkg : List Char) : Bool :=
  decide (mode ≠ .NORMAL) && !isInjectionMode mode &&
    !isAllowListedPackage allowListedPackage pkg

/-- The DATA_INJECTION gate of `createSensorEventConnection`: a
DATA_INJECTION-mode connection is created only when this is `true`. -/
def createConnectionDataInjectionAllowed (serviceMode : OperatingMode)
    (allowListedPackage pkg : List Char) : Bool :=
  decide (serviceMode = .DATA_INJECTION) &&
    isAllowListedPackage allowListedPackage pkg

theorem listStartsWith_iff {pat hay : List Char} :
    listStartsWith pat hay = true ↔ ∃ rest, hay = pat ++ rest := by
  induction pat generalizing hay with
  | nil => simp [listStartsWith]
  | cons a as ih =>
      cases hay with
      | nil => simp [listStartsWith]
      | cons b bs =>
          simp only [listStartsWith]
          by_cases hab : a = b
          · subst hab
            rw [if_pos rfl, ih]
            constructor
            · rintro ⟨rest, rfl⟩; exact ⟨rest, rfl⟩
            · rintro ⟨rest, heq⟩
              simp only [List.cons_append, List.cons.injEq] at heq
              exact ⟨rest, heq.2⟩
          · rw [if_neg hab]
            simp only [Bool.false_eq_true, false_iff]
            rintro ⟨rest, heq⟩
            simp only [List.cons_append, List.cons.injEq] at heq
            exact hab heq.1.symm

theorem strstrContains_iff {hay needle : List Char} :
    strstrContains hay needle = true ↔ isSubstringOf needle hay := by
  induction hay with
  | nil =>
      simp only [strstrContains, listStartsWith_iff, isSubstringOf]
      constructor
      · rintro ⟨rest, heq⟩
        exact ⟨[], rest, by simpa using heq⟩
      · rintro ⟨pre, post, heq⟩
        rcases List.append_eq_nil.mp ((List.append_assoc _ _ _ ▸ heq).symm)
          with ⟨h1, h2⟩
        exact ⟨post, by simp [h1, h2]⟩
  | cons c t ih =>
      simp only [strstrContains]
      by_cases hs : listStartsWith needle (c :: t) = true
      · rw [if_pos hs]
        simp only [true_iff]
        rcases listStartsWith_iff.mp hs with ⟨rest, heq⟩
        exact ⟨[], rest, by simpa using heq⟩
      · rw [if_neg hs, ih]
        unfold isSubstringOf
        constructor
        · rintro ⟨pre, post, heq⟩
          exact ⟨c :: pre, post, by simp [heq]⟩
        · rintro ⟨pre, post, heq⟩
          cases pre with
          | nil =>
              exfalso
              apply hs
              exact listStartsWith_iff.mpr ⟨post, by simpa using heq⟩
          | cons p ps =>
              simp only [List.cons_append, List.cons.injEq] at heq
              exact ⟨ps, post, heq.2⟩

/-- C10: the allowlist test is substring containment (not equality);
an empty stored allowlist admits every package through the
Restricted-mode enable gate and the DataInjection connection gate. -/
theorem C10_theorem (allowListedPackage pkg : List Char) :
    (isAllowListedPackage allowListedPackage pkg = true ↔
      isSubstringOf allowListedPackage pkg) ∧
    (allowListedPackage = [] → isAllowListedPackage allowListedPackage pkg = true) ∧
    (allowListedPackage = [] →
      ∀ mode, enableModeGateBlocks mode allowListedPackage pkg = false) ∧
    (allowListedPackage = [] →
      createConnectionDataInjectionAllowed .DATA_INJECTION
        allowListedPackage pkg = true) := by
  have hempty : ∀ l : List Char, strstrContains l [] = true := by
    intro l
    exact strstrContains_iff.mpr ⟨[], l, by simp⟩
  refine ⟨strstrContains_iff, ?_, ?_, ?_⟩
  · rintro rfl
    exact hempty pkg
  · rintro rfl mode
    simp [enableModeGateBlocks, isAllowListedPackage, hempty pkg]
  · rintro rfl
    simp [createConnectionDataInjectionAllowed, isAllowListedPackage, hempty pkg]

theorem C10_witness :
    (isAllowListedPackage [] ['c', 'o', 'm'] = true ↔
      isSubstringOf [] ['c', 'o', 'm']) ∧
    isAllowListedPackage [] ['c', 'o', 'm'] = true ∧
    enableModeGateBlocks .RESTRICTED [] ['c', 'o', 'm'] = false ∧
    createConnectionDataInjectionAllowed .DATA_INJECTION [] ['c', 'o', 'm'] = true := by
  have h := C10_theorem [] ['c', 'o', 'm']
  exact ⟨h.1, h.2.1 rfl, h.2.2.1 rfl .RESTRICTED, h.2.2.2 rfl⟩

/-! ### C6: SensorService::changeOperatingMode -/

/-- The mode-related slice of the service state. -/
structure ModeState where
  mode : OperatingMode
  allowListedPackage : List Char
  deriving DecidableEq

/-- `SensorService::changeOperatingMode`.  `argsCount` is `args.size()`,
`allowArg` is `args[1]`, `halSetModeOk` abstracts the result of
`dev.setMode(...)`. -/
def changeOperatingMode (st : ModeState) (argsCount : Nat) (allowArg : List Char)
    (isUserBuild halSetModeOk : Bool) (target : OperatingMode) :
    ModeState × Status :=
  if st.mode = target then (st, .NO_ERROR)
  else if target ≠ .NORMAL ∧ argsCount < 2 then (st, .INVALID_OPERATION)
  else
    match target with
    | .NORMAL =>
        let st1 := if st.mode = .RESTRICTED then { st with mode := .NORMAL } else st
        let st2 :=
          if isInjectionMode st1.mode then
            -- resetToNormalModeLocked: mode flips only if dev.setMode succeeds
            if halSetModeOk then { st1 with mode := .NORMAL } else st1
          else st1
        ({ st2 with allowListedPackage := [] }, .NO_ERROR)
    | .RESTRICTED =>
        if st.mode ≠ .NORMAL then (st, .INVALID_OPERATION)
        else ({ mode := .RESTRICTED, allowListedPackage := allowArg }, .NO_ERROR)
    | .REPLAY_DATA_INJECTION | .HAL_BYPASS_REPLAY_DATA_INJECTION | .DATA_INJECTION =>
        if (target = .REPLAY_DATA_INJECTION ∨
            target = .HAL_BYPASS_REPLAY_DATA_INJECTION) ∧ isUserBuild then
          (st, .INVALID_OPERATION)
        else if st.mode = .NORMAL then
          ({ mode := if halSetModeOk then target else st.mode,
             allowListedPackage := allowArg }, .NO_ERROR)
        else (st, .INVALID_OPERATION)

/-- C6 counterexample: a request whose target equals the current mode
returns `NO_ERROR` (early no-op return), not `INVALID_OPERATION` as the
claim states. -/
theorem C6_counterexample :
    (changeOperatingMode ⟨.RESTRICTED, []⟩ 2 [] false true .RESTRICTED).2 =
      .NO_ERROR ∧
    Status.NO_ERROR ≠ Status.INVALID_OPERATION := by
  constructor
  · rfl
  · intro h; cases h

/-- C6 (amended): with the allowlist argument present, the returned
status is `NO_ERROR` exactly for: a no-op request (`target = current`),
any request targeting `NORMAL`, `NORMAL → RESTRICTED`, and
`NORMAL → {DataInjection, ReplayDataInjection, HalBypassReplayInjection}`
where the two replay variants are additionally rejected on user builds;
every other request returns `INVALID_OPERATION`. -/
theorem C6_theorem (st : ModeState) (argsCount : Nat) (allowArg : List Char)
    (isUserBuild halSetModeOk : Bool) (target : OperatingMode)
    (hargs : 2 ≤ argsCount) :
    ((changeOperatingMode st argsCount allowArg isUserBuild halSetModeOk
        target).2 = .NO_ERROR ↔
      (st.mode = target ∨ target = .NORMAL ∨
        (st.mode = .NORMAL ∧ target = .RESTRICTED) ∨
        (st.mode = .NORMAL ∧ isInjectionMode target = true ∧
          ¬ (isUserBuild = true ∧ (target = .REPLAY_DATA_INJECTION ∨
              target = .HAL_BYPASS_REPLAY_DATA_INJECTION))))) ∧
    ((changeOperatingMode st argsCount allowArg isUserBuild halSetModeOk
        target).2 = .NO_ERROR ∨
      (changeOperatingMode st argsCount allowArg isUserBuild halSetModeOk
        target).2 = .INVALID_OPERATION) := by
  have hargs' : ¬ argsCount < 2 := by omega
  obtain ⟨m, al⟩ := st
  cases m <;> cases target <;> cases isUserBuild <;> cases halSetModeOk <;>
    simp [changeOperatingMode, isInjectionMode, hargs']

theorem C6_witness :
    ((changeOperatingMode ⟨.NORMAL, []⟩ 2 ['a'] true true
        .REPLAY_DATA_INJECTION).2 = .NO_ERROR ↔
      (OperatingMode.NORMAL = .REPLAY_DATA_INJECTION ∨
        OperatingMode.REPLAY_DATA_INJECTION = .NORMAL ∨
        (OperatingMode.NORMAL = .NORMAL ∧
          OperatingMode.REPLAY_DATA_INJECTION = .RESTRICTED) ∨
        (OperatingMode.NORMAL = .NORMAL ∧
          isInjectionMode .REPLAY_DATA_INJECTION = true ∧
          ¬ (true = true ∧ (OperatingMode.REPLAY_DATA_INJECTION =
              .REPLAY_DATA_INJECTION ∨
            OperatingMode.REPLAY_DATA_INJECTION =
              .HAL_BYPASS_REPLAY_DATA_INJECTION))))) ∧
    ((changeOperatingMode ⟨.NORMAL, []⟩ 2 ['a'] true true
        .REPLAY_DATA_INJECTION).2 = .NO_ERROR ∨
      (changeOperatingMode ⟨.NORMAL, []⟩ 2 ['a'] true true
        .REPLAY_DATA_INJECTION).2 = .INVALID_OPERATION) :=
  C6_theorem ⟨.NORMAL, []⟩ 2 ['a'] true true .REPLAY_DATA_INJECTION
    (by omega)

/-! ### C8: SensorService::adjustSamplingPeriodBasedOnMicAndPermission -/

def SENSOR_SERVICE_CAPPED_SAMPLING_PERIOD_NS : Int := 5000000

def ANDROID_API_S : Int := 31

/-- `SensorService::isRateCappedBasedOnPermission`.  The target SDK and
the permission check are external collaborator results. -/
def isRateCappedBasedOnPermission (targetSdk : Int)
    (hasSamplingRatePermission : Bool) : Bool :=
  if targetSdk < ANDROID_API_S ∨
      (targetSdk ≥ ANDROID_API_S ∧ hasSamplingRatePermission = true) then false
  else true

/-- `SensorService::adjustSamplingPeriodBasedOnMicAndPermission`;
returns the (possibly raised) period together with the status. -/
def adjustSamplingPeriodBasedOnMicAndPermission (requestedPeriodNs : Int)
    (targetSdk : Int)
    (hasSamplingRatePermission packageDebuggable micPrivacyEnabled : Bool) :
    Int × Status :=
  if requestedPeriodNs ≥ SENSOR_SERVICE_CAPPED_SAMPLING_PERIOD_NS then
    (requestedPeriodNs, .NO_ERROR)
  else if isRateCappedBasedOnPermission targetSdk hasSamplingRatePermission then
    (SENSOR_SERVICE_CAPPED_SAMPLING_PERIOD_NS,
      if packageDebuggable then .PERMISSION_DENIED else .NO_ERROR)
  else if micPrivacyEnabled then
    (SENSOR_SERVICE_CAPPED_SAMPLING_PERIOD_NS, .NO_ERROR)
  else (requestedPeriodNs, .NO_ERROR)

/-- C8: a period at or above the cap passes unchanged with OK; a
below-cap request from a rate-capped package is raised to the cap with
`PERMISSION_DENIED` iff the package is debuggable; a below-cap request
from a non-capped package with the mic toggle engaged is raised to the
cap with OK. -/
theorem C8_theorem (requestedPeriodNs targetSdk : Int)
    (hasSamplingRatePermission packageDebuggable micPrivacyEnabled : Bool) :
    (SENSOR_SERVICE_CAPPED_SAMPLING_PERIOD_NS ≤ requestedPeriodNs →
      adjustSamplingPeriodBasedOnMicAndPermission requestedPeriodNs targetSdk
          hasSamplingRatePermission packageDebuggable micPrivacyEnabled =
        (requestedPeriodNs, .NO_ERROR)) ∧
    (requestedPeriodNs < SENSOR_SERVICE_CAPPED_SAMPLING_PERIOD_NS →
      isRateCappedBasedOnPermission targetSdk hasSamplingRatePermission = true →
      (adjustSamplingPeriodBasedOnMicAndPermission requestedPeriodNs targetSdk
          hasSamplingRatePermission packageDebuggable micPrivacyEnabled).1 =
        SENSOR_SERVICE_CAPPED_SAMPLING_PERIOD_NS ∧
      ((adjustSamplingPeriodBasedOnMicAndPermission requestedPeriodNs targetSdk
          hasSamplingRatePermission packageDebuggable micPrivacyEnabled).2 =
        .PERMISSION_DENIED ↔ packageDebuggable = true)) ∧
    (requestedPeriodNs < SENSOR_SERVICE_CAPPED_SAMPLING_PERIOD_NS →
      isRateCappedBasedOnPermission targetSdk hasSamplingRatePermission = false →
      micPrivacyEnabled = true →
      adjustSamplingPeriodBasedOnMicAndPermission requestedPeriodNs targetSdk
          hasSamplingRatePermission packageDebuggable micPrivacyEnabled =
        (SENSOR_SERVICE_CAPPED_SAMPLING_PERIOD_NS, .NO_ERROR)) := by
  refine ⟨?_, ?_, ?_⟩
  · intro h
    unfold adjustSamplingPeriodBasedOnMicAndPermission
    rw [if_pos (by omega)]
  · intro h hcap
    unfold adjustSamplingPeriodBasedOnMicAndPermission
    rw [if_neg (by omega), if_pos hcap]
    cases packageDebuggable <;> simp
  · intro h hcap hmic
    unfold adjustSamplingPeriodBasedOnMicAndPermission
    rw [if_neg (by omega), hcap, if_neg (by simp), hmic, if_pos rfl]

theorem C8_witness :
    (adjustSamplingPeriodBasedOnMicAndPermission 1000000 34 false true
        false).1 = SENSOR_SERVICE_CAPPED_SAMPLING_PERIOD_NS ∧
    ((adjustSamplingPeriodBasedOnMicAndPermission 1000000 34 false true
        false).2 = .PERMISSION_DENIED ↔ (true : Bool) = true) :=
  (C8_theorem 1000000 34 false true false).2.1 (by decide) (by decide)

/-! ### C9: SensorService::initializeHmacKey

`sHmacGlobalKey` is a 128-byte array; `RAND_bytes` fills all 128 bytes;
the key file is created with `open(.., O_WRONLY|O_CREAT|O_EXCL,
S_IRUSR|S_IWUSR)`, i.e. mode 0600 = 384. -/

structure HmacKeyInit where
  result : Bool
  key : Option (List Nat)
  createdFileMode : Option Nat
  wroteKey : Bool
  deriving DecidableEq

/-- `SensorService::initializeHmacKey`.  `existingFile` is the contents
of the persisted key file if it exists, `rand` the byte stream of
`RAND_bytes` (with `randOk` its success flag), `writeOk` the success of
the 128-byte `write`. -/
def initializeHmacKey (existingFile : Option (List Nat)) (randOk : Bool)
    (rand : Nat → Nat) (writeOk : Bool) : HmacKeyInit :=
  match existingFile with
  | some contents =>
      if 128 ≤ contents.length then
        -- read(fd, sHmacGlobalKey, 128) returned 128: key loaded
        ⟨true, some (contents.take 128), none, false⟩
      else if randOk = false then ⟨false, none, none, false⟩
      else
        -- regenerate; open(O_CREAT|O_EXCL) fails because the file exists
        ⟨true, some ((List.range 128).map rand), none, false⟩
  | none =>
      if randOk = false then ⟨false, none, none, false⟩
      else
        ⟨true, some ((List.range 128).map rand), some 384, writeOk⟩

/-- C9 counterexample: the key file is created with mode 0600
(`S_IRUSR|S_IWUSR` = 384), not the claimed owner-read-only 0400 = 256. -/
theorem C9_counterexample :
    (initializeHmacKey none true (fun _ => 0) true).result = true ∧
    (initializeHmacKey none true (fun _ => 0) true).createdFileMode = some 384 ∧
    (384 : Nat) ≠ 256 := by
  refine ⟨rfl, rfl, by omega⟩

/-- C9 (amended): when the key file is absent or cannot be fully read
and the RNG succeeds, exactly 128 random bytes are generated, the key
file (when absent) is created with owner read+write permissions (mode
0600), and the function returns true even when persisting fails. -/
theorem C9_theorem (existingFile : Option (List Nat)) (rand : Nat → Nat)
    (writeOk : Bool)
    (hmiss : existingFile = none ∨
      ∃ c, existingFile = some c ∧ c.length < 128) :
    (initializeHmacKey existingFile true rand writeOk).result = true ∧
    (∃ k, (initializeHmacKey existingFile true rand writeOk).key = some k ∧
      k.length = 128) ∧
    (existingFile = none →
      (initializeHmacKey existingFile true rand writeOk).createdFileMode =
        some 384) := by
  rcases hmiss with rfl | ⟨c, rfl, hc⟩
  · refine ⟨rfl, ⟨_, rfl, by simp⟩, fun _ => rfl⟩
  · have hlen : ¬ 128 ≤ c.length := by omega
    refine ⟨?_, ?_, ?_⟩
    · simp [initializeHmacKey, hlen]
    · refine ⟨(List.range 128).map rand, ?_, by simp⟩
      simp [initializeHmacKey, hlen]
    · intro h; cases h

theorem C9_witness :
    (initializeHmacKey none true (fun n => n + 1) false).result = true ∧
    (∃ k, (initializeHmacKey none true (fun n => n + 1) false).key = some k ∧
      k.length = 128) ∧
    (initializeHmacKey none true (fun n => n + 1) false).createdFileMode =
      some 384 := by
  have h := C9_theorem none (fun n => n + 1) false (Or.inl rfl)
  exact ⟨h.1, h.2.1, h.2.2 rfl⟩

/-! ### C5: runtime/dynamic sensor handle allocation -/

/-- Modelled from the spec: the dedicated runtime-sensor handle range
`[RUNTIME_SENSORS_HANDLE_BASE, RUNTIME_SENSORS_HANDLE_END)` of the
sensors HAL interface (`ISensors` AIDL constants; the interface is an
external collaborator of the verified code). -/
def RUNTIME_SENSORS_HANDLE_BASE : Int := 0x5F000000

def RUNTIME_SENSORS_HANDLE_END : Int := 0x5FFFFFFF

/-- Modelled from the spec: the sensor registry (`SensorList` is not
part of the verified sources).  `used` is the set of handles ever
added — never shrunk by removal ("Handle %d has been used, cannot use
again before reboot"); `current` is the set of present sensors. -/
structure RegistryState where
  nextHandle : Int
  used : List Int
  current : List Int
  deriving DecidableEq

/-- `nextRuntimeSensorHandle` (the anonymous-namespace helper, with the
static counter made explicit): the allocated handle (or −1 when the
range is exhausted) together with the new counter value. -/
def nextRuntimeSensorHandle (next : Int) : Int × Int :=
  if next = RUNTIME_SENSORS_HANDLE_END then (-1, next) else (next, next + 1)

/-- The `while (handle == 0 || !mSensors.isNewHandle(handle))` loop of
`registerRuntimeSensor`, with explicit fuel; the loop advances the
counter by one per round, so `(END − next).toNat + 1` rounds suffice. -/
def allocRuntimeHandleLoop : Nat → Int → List Int → Option (Int × Int)
  | 0, _, _ => none
  | fuel + 1, next, used =>
      let p := nextRuntimeSensorHandle next
      if p.1 < 0 then none
      else if p.1 = 0 ∨ p.1 ∈ used then allocRuntimeHandleLoop fuel p.2 used
      else some (p.1, p.2)

/-- `SensorService::registerRuntimeSensor` (handle-allocation slice):
allocate a fresh runtime handle and add it to the registry. -/
def registerRuntimeSensor (st : RegistryState) : Option Int × RegistryState :=
  match allocRuntimeHandleLoop
      ((RUNTIME_SENSORS_HANDLE_END - st.nextHandle).toNat + 1)
      st.nextHandle st.used with
  | none => (none, { st with nextHandle := RUNTIME_SENSORS_HANDLE_END })
  | some (h, next') =>
      (some h,
        { nextHandle := next', used := h :: st.used, current := h :: st.current })

/-- The dynamic-sensor registration branch of `threadLoop`
(`SENSOR_TYPE_DYNAMIC_SENSOR_META`, `connected == true`): registration
is refused when `mSensors.isNewHandle(handle)` is false, i.e. when the
handle was ever used before. -/
def registerDynamicSensor (st : RegistryState) (h : Int) :
    Option Int × RegistryState :=
  if h ∈ st.used then (none, st)
  else (some h, { st with used := h :: st.used, current := h :: st.current })

/-- `unregisterDynamicSensorLocked` / `SensorList::remove`: the sensor
disappears but its handle stays marked used. -/
def removeSensor (st : RegistryState) (h : Int) : RegistryState :=
  { st with current := st.current.erase h }

inductive RegOp
  | runtime
  | dynamic (h : Int)
  | remove (h : Int)

def applyRegOp (st : RegistryState) : RegOp → Option Int × RegistryState
  | .runtime => registerRuntimeSensor st
  | .dynamic h => registerDynamicSensor st h
  | .remove h => (none, removeSensor st h)

def runRegOps (st : RegistryState) : List RegOp → List (Option Int) × RegistryState
  | [] => ([], st)
  | op :: ops =>
      let p := applyRegOp st op
      let q := runRegOps p.2 ops
      (p.1 :: q.1, q.2)

theorem allocRuntimeHandleLoop_some {fuel : Nat} {next : Int} {used : List Int}
    {h next' : Int}
    (heq : allocRuntimeHandleLoop fuel next used = some (h, next')) :
    h ∉ used ∧ next ≤ h ∧
      (next ≤ RUNTIME_SENSORS_HANDLE_END → h < RUNTIME_SENSORS_HANDLE_END) := by
  induction fuel generalizing next with
  | zero => simp [allocRuntimeHandleLoop] at heq
  | succ fuel ih =>
      rw [allocRuntimeHandleLoop] at heq
      simp only [nextRuntimeSensorHandle] at heq
      by_cases hend : next = RUNTIME_SENSORS_HANDLE_END
      · rw [if_pos hend] at heq
        simp at heq
      · rw [if_neg hend] at heq
        simp only at heq
        by_cases hneg : next < 0
        · rw [if_pos hneg] at heq; cases heq
        · rw [if_neg hneg] at heq
          by_cases hskip : next = 0 ∨ next ∈ used
          · rw [if_pos hskip] at heq
            obtain ⟨h1, h2, h3⟩ := ih heq
            exact ⟨h1, by omega, fun hle => h3 (by omega)⟩
          · rw [if_neg hskip] at heq
            obtain ⟨rfl, rfl⟩ : next = h ∧ next + 1 = next' := by
              constructor <;> [exact congrArg Prod.fst (Option.some.inj heq);
                exact congrArg Prod.snd (Option.some.inj heq)]
            push_neg at hskip
            exact ⟨hskip.2, le_refl _, fun hle => by omega⟩

theorem applyRegOp_success {st : RegistryState} {op : RegOp} {h : Int}
    (heq : (applyRegOp st op).1 = some h) :
    h ∉ st.used ∧ h ∈ (applyRegOp st op).2.used := by
  cases op with
  | runtime =>
      simp only [applyRegOp, registerRuntimeSensor] at heq ⊢
      rcases halloc : allocRuntimeHandleLoop
          ((RUNTIME_SENSORS_HANDLE_END - st.nextHandle).toNat + 1)
          st.nextHandle st.used with _ | ⟨h0, next'⟩
      · rw [halloc] at heq
        exact Option.noConfusion heq
      · rw [halloc] at heq
        obtain rfl : h0 = h := Option.some.inj heq
        exact ⟨(allocRuntimeHandleLoop_some halloc).1, List.mem_cons_self _ _⟩
  | dynamic hd =>
      simp only [applyRegOp, registerDynamicSensor] at heq ⊢
      by_cases hmem : hd ∈ st.used
      · rw [if_pos hmem] at heq
        exact Option.noConfusion heq
      · rw [if_neg hmem] at heq ⊢
        obtain rfl : hd = h := Option.some.inj heq
        exact ⟨hmem, List.mem_cons_self _ _⟩
  | remove hd => exact Option.noConfusion heq

theorem applyRegOp_used_mono {st : RegistryState} {op : RegOp} {x : Int}
    (hx : x ∈ st.used) : x ∈ (applyRegOp st op).2.used := by
  cases op with
  | runtime =>
      simp only [applyRegOp, registerRuntimeSensor]
      rcases halloc : allocRuntimeHandleLoop
          ((RUNTIME_SENSORS_HANDLE_END - st.nextHandle).toNat + 1)
          st.nextHandle st.used with _ | ⟨h0, next'⟩
      · exact hx
      · exact List.mem_cons_of_mem _ hx
  | dynamic hd =>
      simp only [applyRegOp, registerDynamicSensor]
      by_cases hmem : hd ∈ st.used
      · rw [if_pos hmem]; exact hx
      · rw [if_neg hmem]; exact List.mem_cons_of_mem _ hx
  | remove hd => exact hx

theorem runRegOps_nodup_aux (ops : List RegOp) (st : RegistryState)
    (acc : List Int) (hacc : ∀ x ∈ acc, x ∈ st.used) (hnd : acc.Nodup) :
    (acc ++ (runRegOps st ops).1.filterMap id).Nodup := by
  induction ops generalizing st acc with
  | nil => simpa [runRegOps] using hnd
  | cons op ops ih =>
      rcases hres : (applyRegOp st op).1 with _ | h
      · have hstep : (runRegOps st (op :: ops)).1.filterMap id =
            (runRegOps (applyRegOp st op).2 ops).1.filterMap id := by
          simp [runRegOps, hres]
        rw [hstep]
        exact ih (applyRegOp st op).2 acc
          (fun x hx => applyRegOp_used_mono (hacc x hx)) hnd
      · have hstep : (runRegOps st (op :: ops)).1.filterMap id =
            h :: (runRegOps (applyRegOp st op).2 ops).1.filterMap id := by
          simp [runRegOps, hres]
        rw [hstep]
        have hsucc := applyRegOp_success hres
        have gen := ih (applyRegOp st op).2 (acc ++ [h]) ?_ ?_
        · simpa [List.append_assoc] using gen
        · intro x hx
          rcases List.mem_append.mp hx with hx | hx
          · exact applyRegOp_used_mono (hacc x hx)
          · simp only [List.mem_singleton] at hx
            subst hx
            exact hsucc.2
        · rw [List.nodup_append]
          refine ⟨hnd, by simp, ?_⟩
          intro x hx hx'
          simp only [List.mem_singleton] at hx'
          subst hx'
          exact hsucc.1 (hacc x hx)

/-- C5: over any sequence of runtime registrations, dynamic
registrations and removals, all successfully assigned handles are
pairwise distinct (so a removed handle is never assigned again);
dynamic registration of a handle ever used is refused without any state
change; runtime handles come from the monotone counter inside
`[RUNTIME_SENSORS_HANDLE_BASE, RUNTIME_SENSORS_HANDLE_END)` skipping
handles already in the registry. -/
theorem C5_theorem (initUsed initCurrent : List Int) (ops : List RegOp) :
    ((runRegOps ⟨RUNTIME_SENSORS_HANDLE_BASE, initUsed, initCurrent⟩
        ops).1.filterMap id).Nodup ∧
    (∀ st : RegistryState, ∀ h : Int, h ∈ st.used →
      (applyRegOp st (.dynamic h)).1 = none ∧
      (applyRegOp st (.dynamic h)).2 = st) ∧
    (∀ st : RegistryState, ∀ h : Int,
      RUNTIME_SENSORS_HANDLE_BASE ≤ st.nextHandle →
      st.nextHandle ≤ RUNTIME_SENSORS_HANDLE_END →
      (applyRegOp st .runtime).1 = some h →
      RUNTIME_SENSORS_HANDLE_BASE ≤ h ∧ h < RUNTIME_SENSORS_HANDLE_END ∧
        h ∉ st.used) := by
  refine ⟨?_, ?_, ?_⟩
  · simpa using
      runRegOps_nodup_aux ops ⟨RUNTIME_SENSORS_HANDLE_BASE, initUsed, initCurrent⟩
        [] (by simp) (by simp)
  · intro st h hmem
    simp [applyRegOp, registerDynamicSensor, hmem]
  · intro st h hbase hend heq
    simp only [applyRegOp, registerRuntimeSensor] at heq
    rcases halloc : allocRuntimeHandleLoop
        ((RUNTIME_SENSORS_HANDLE_END - st.nextHandle).toNat + 1)
        st.nextHandle st.used with _ | ⟨h0, next'⟩
    · rw [halloc] at heq
      exact Option.noConfusion heq
    · rw [halloc] at heq
      obtain rfl : h0 = h := Option.some.inj heq
      obtain ⟨h1, h2, h3⟩ := allocRuntimeHandleLoop_some halloc
      exact ⟨by omega, h3 hend, h1⟩

theorem C5_witness :
    ((runRegOps ⟨RUNTIME_SENSORS_HANDLE_BASE, [], []⟩
        [.dynamic 7, .remove 7, .dynamic 7]).1.filterMap id).Nodup ∧
    ((applyRegOp ⟨RUNTIME_SENSORS_HANDLE_BASE, [7], [7]⟩ (.dynamic 7)).1 = none ∧
      (applyRegOp ⟨RUNTIME_SENSORS_HANDLE_BASE, [7], [7]⟩ (.dynamic 7)).2 =
        ⟨RUNTIME_SENSORS_HANDLE_BASE, [7], [7]⟩) ∧
    (RUNTIME_SENSORS_HANDLE_BASE ≤ RUNTIME_SENSORS_HANDLE_BASE ∧
      RUNTIME_SENSORS_HANDLE_BASE < RUNTIME_SENSORS_HANDLE_END ∧
      RUNTIME_SENSORS_HANDLE_BASE ∉ ([] : List Int)) := by
  have h := C5_theorem [] [] [.dynamic 7, .remove 7, .dynamic 7]
  refine ⟨h.1, h.2.1 ⟨RUNTIME_SENSORS_HANDLE_BASE, [7], [7]⟩ 7 (by decide), ?_⟩
  exact h.2.2 ⟨RUNTIME_SENSORS_HANDLE_BASE, [], []⟩ RUNTIME_SENSORS_HANDLE_BASE
    (by decide) (by decide) (by decide)

/-! ### The service state for enable / disable / dispatch (C3, C4, C7)

`SensorService::enable`, `disable`/`cleanupWithoutDisableLocked`,
`cleanupAutoDisabledSensorLocked`, `cleanupConnection`,
`sendEventsToAllClients` and the dispatch iteration of `threadLoop` are
embedded over a state carrying the components these functions touch.
The flush bookkeeping (pending-flush FIFOs, first-flush flags), the
registration ring and the dynamic-sensor-meta registration inside the
dispatch loop are outside the modelled slice; none of the claims below
depends on them. -/

abbrev Handle := Int

abbrev ConnId := Nat

inductive SensorReportingMode
  | continuous
  | onChange
  | oneShot
  | special
  deriving DecidableEq, Repr

structure SensorInfo where
  isWakeUpSensor : Bool
  reportingMode : SensorReportingMode
  isVirtual : Bool
  deriving DecidableEq, Repr

/-- The sensor catalog, as `getSensorInterfaceFromHandle`. -/
abbrev SensorRegistry := Handle → Option SensorInfo

/-- Modelled from the spec: the per-client state of a
`SensorEventConnection` (subscribed handle set, wake-lock refcount,
package name); `SensorEventConnection.cpp` is not among the verified
sources. -/
structure ConnState where
  subscribed : List Handle
  wakeLockRefCount : Nat
  package : List Char
  deriving DecidableEq

/-- Modelled from the spec: an Active Sensor Record holds the set of
owning connections (`SensorRecord`'s method bodies are not among the
verified sources). -/
structure SensorRecord where
  connections : List ConnId
  deriving DecidableEq

/-- Modelled from the spec: a recent-event cache entry with its
staleness flag (`RecentEventLogger` is not among the verified
sources). -/
structure RecentEntry where
  ev : SensorsEvent
  stale : Bool
  deriving DecidableEq

structure ServiceState where
  activeSensors : List (Handle × SensorRecord)
  activeVirtualSensors : List Handle
  connState : ConnId → ConnState
  holder : List ConnId
  recent : Handle → Option RecentEntry
  wakeLockAcquired : Bool
  mode : OperatingMode
  allowListedPackage : List Char

/-- `mActiveSensors.valueFor`. -/
def lookupRec : List (Handle × SensorRecord) → Handle → Option SensorRecord
  | [], _ => none
  | (h', r) :: rest, h => if h' = h then some r else lookupRec rest h

/-- `mActiveSensors.removeItem` (keys are unique). -/
def removeRec : List (Handle × SensorRecord) → Handle → List (Handle × SensorRecord)
  | [], _ => []
  | (h', r) :: rest, h => if h' = h then rest else (h', r) :: removeRec rest h

/-- In-place update of the record stored under a key. -/
def updateRec : List (Handle × SensorRecord) → Handle → SensorRecord →
    List (Handle × SensorRecord)
  | [], _, _ => []
  | (h', r') :: rest, h, r =>
      if h' = h then (h, r) :: rest else (h', r') :: updateRec rest h r

def setConn (st : ServiceState) (c : ConnId) (cs : ConnState) : ServiceState :=
  { st with connState := fun c' => if c' = c then cs else st.connState c' }

/-- The handle an event is attributed to (`meta_data.sensor` for flush
complete events). -/
def sensorEventHandle (e : SensorsEvent) : Handle :=
  if e.type = SENSOR_TYPE_META_DATA then e.metaDataSensor else e.sensor

/-- `SensorService::isWakeUpSensorEvent`. -/
def isWakeUpSensorEvent (sensors : SensorRegistry) (e : SensorsEvent) : Bool :=
  match sensors (sensorEventHandle e) with
  | some s => s.isWakeUpSensor
  | none => false

/-- Modelled from the spec: `SensorEventConnection::sendEvents` — the
connection filters by its subscribed handles (no filtering when called
with a null scratch buffer, as in the on-change replay) and charges its
wake-lock refcount with one unit per delivered wake-up event. -/
def connSendEvents (sensors : SensorRegistry) (cs : ConnState)
    (events : List SensorsEvent) (filterBySubscription : Bool) : ConnState :=
  let delivered :=
    if filterBySubscription then
      events.filter (fun e => decide (sensorEventHandle e ∈ cs.subscribed))
    else events
  { cs with wakeLockRefCount :=
      cs.wakeLockRefCount + (delivered.filter (isWakeUpSensorEvent sensors)).length }

/-- Modelled from the spec: `needsWakeLock` is "refcount > 0". -/
def connNeedsWakeLock (cs : ConnState) : Bool :=
  decide (0 < cs.wakeLockRefCount)

/-- Modelled from the spec: `hasOneShotSensors`. -/
def connHasOneShotSensors (sensors : SensorRegistry) (cs : ConnState) : Bool :=
  cs.subscribed.any (fun h =>
    match sensors h with
    | some si => decide (si.reportingMode = SensorReportingMode.oneShot)
    | none => false)

/-- Observable wakelock / delivery actions of the modelled operations,
in program order. -/
inductive DispatchAction
  | acquire
  | release
  | wakeLockHandled (n : Nat)
  | send (c : ConnId) (events : List SensorsEvent)
  deriving DecidableEq

/-- `SensorService::setWakeLockAcquiredLocked`: new flag value plus the
emitted wakelock action. -/
def setWakeLockAcquiredLocked (wl : Bool) (acquire : Bool) :
    Bool × List DispatchAction :=
  if acquire then
    if wl then (wl, []) else (true, [.acquire])
  else
    if wl then (false, [.release]) else (wl, [])

/-- `SensorService::checkWakeLockStateLocked`. -/
def checkWakeLockStateLocked (st : ServiceState) :
    ServiceState × List DispatchAction :=
  if st.wakeLockAcquired = false then (st, [])
  else if st.holder.all (fun c => !connNeedsWakeLock (st.connState c)) then
    let p := setWakeLockAcquiredLocked st.wakeLockAcquired false
    ({ st with wakeLockAcquired := p.1 }, p.2)
  else (st, [])

/-- The `connection->removeSensor(handle)` part of
`cleanupWithoutDisableLocked` plus the holder removal when the
connection has no sensors left. -/
def cleanupConnStateUpdate (st : ServiceState) (c : ConnId) (h : Handle) :
    ServiceState :=
  if ((st.connState c).subscribed.erase h).isEmpty then
    { setConn st c
        { st.connState c with subscribed := (st.connState c).subscribed.erase h }
      with holder :=
        (setConn st c
          { st.connState c with
              subscribed := (st.connState c).subscribed.erase h }).holder.erase c }
  else
    setConn st c
      { st.connState c with subscribed := (st.connState c).subscribed.erase h }

/-- The `rec->removeConnection(connection)` part of
`cleanupWithoutDisableLocked`: drop the connection from the record and
destroy the record when it was the last one. -/
def cleanupRecordUpdate (st : ServiceState) (h : Handle)
    (record : SensorRecord) (c : ConnId) : ServiceState :=
  if (record.connections.erase c).isEmpty then
    { st with activeSensors := removeRec st.activeSensors h,
              activeVirtualSensors := st.activeVirtualSensors.erase h }
  else
    { st with activeSensors := updateRec st.activeSensors h ⟨record.connections.erase c⟩ }

/-- `SensorService::cleanupWithoutDisableLocked`. -/
def cleanupWithoutDisableLocked (st : ServiceState) (c : ConnId) (h : Handle) :
    ServiceState × Status :=
  match lookupRec st.activeSensors h with
  | none => (st, .BAD_VALUE)
  | some record =>
      (cleanupRecordUpdate (cleanupConnStateUpdate st c h) h record c, .NO_ERROR)

/-- `SensorService::cleanupAutoDisabledSensorLocked` (one-shot
auto-disable after delivery). -/
def cleanupAutoDisabledSensorLocked (sensors : SensorRegistry)
    (st : ServiceState) (c : ConnId) (buffer : List SensorsEvent) : ServiceState :=
  buffer.foldl (fun st e =>
    if sensorEventHandle e ∈ (st.connState c).subscribed then
      match sensors (sensorEventHandle e) with
      | some si =>
          if si.reportingMode = SensorReportingMode.oneShot then
            (cleanupWithoutDisableLocked st c (sensorEventHandle e)).1
          else st
      | none => st
    else st) st

/-- Mark the recent-event entry of a handle stale
(`RecentEventLogger::setLastEventStale`, called from `enable`). -/
def markRecentStale (st : ServiceState) (h : Handle) : ServiceState :=
  match st.recent h with
  | some entry =>
      { st with recent := fun h' =>
          if h' = h then some { entry with stale := true } else st.recent h' }
  | none => st

/-- The innermost replay step of `enable`: acquire the wakelock first if
the recent event is a wake-up event, send it unfiltered on this
connection, then re-check the wakelock state. -/
def enableReplaySend (sensors : SensorRegistry) (st : ServiceState) (c : ConnId)
    (ev : SensorsEvent) : ServiceState × List DispatchAction :=
  let q :=
    if isWakeUpSensorEvent sensors ev && !st.wakeLockAcquired then
      setWakeLockAcquiredLocked st.wakeLockAcquired true
    else (st.wakeLockAcquired, [])
  let stB := { st with wakeLockAcquired := q.1 }
  let cs' := connSendEvents sensors (stB.connState c) [ev] false
  let stC := setConn stB c cs'
  let r :=
    if !connNeedsWakeLock cs' && stC.wakeLockAcquired then
      checkWakeLockStateLocked stC
    else (stC, [])
  (r.1, q.2 ++ [DispatchAction.send c [ev]] ++ r.2)

/-- The on-change replay of `enable` (record existed, connection newly
added): deliver the recent event if it is current and well-formed. -/
def enableOnChangeReplay (sensors : SensorRegistry) (st : ServiceState)
    (c : ConnId) (h : Handle) : ServiceState × List DispatchAction :=
  match st.recent h with
  | some entry =>
      if entry.stale then (st, [])
      else
        let ev := { entry.ev with sensor := h }
        if ev.version = EVENT_VERSION then enableReplaySend sensors st c ev
        else (st, [])
  | none => (st, [])

/-- The no-record branch of `enable`: create a fresh Active Sensor
Record owned by this connection, register the virtual sensor as active
when applicable, and mark the recent entry stale for on-change
sensors. -/
def enableNewRecord (info : SensorInfo) (st : ServiceState) (c : ConnId)
    (h : Handle) : ServiceState :=
  let stA := { st with activeSensors := (h, ⟨[c]⟩) :: st.activeSensors }
  let stB :=
    if info.isVirtual then
      { stA with activeVirtualSensors := h :: stA.activeVirtualSensors }
    else stA
  if info.reportingMode = SensorReportingMode.onChange then
    markRecentStale stB h
  else stB

/-- The Active-Sensor-Record phase of `enable`: create the record (and
mark the recent entry stale for on-change sensors), or add the
connection to the existing record and replay the recent on-change
event. -/
def enableRecordPhase (sensors : SensorRegistry) (info : SensorInfo)
    (st : ServiceState) (c : ConnId) (h : Handle) :
    ServiceState × List DispatchAction :=
  match lookupRec st.activeSensors h with
  | none => (enableNewRecord info st c h, ([] : List DispatchAction))
  | some record =>
      if c ∈ record.connections then (st, [])
      else
        let stA :=
          { st with activeSensors := updateRec st.activeSensors h ⟨c :: record.connections⟩ }
        if info.reportingMode = SensorReportingMode.onChange then
          enableOnChangeReplay sensors stA c h
        else (stA, [])

/-- The `connection->addSensor(handle)` /
`addEventConnectionIfNotPresent` phase of `enable`. -/
def enableAddSensor (st : ServiceState) (c : ConnId) (h : Handle) : ServiceState :=
  let cs := st.connState c
  if h ∈ cs.subscribed then st
  else
    let stA := setConn st c { cs with subscribed := h :: cs.subscribed }
    { stA with holder := if c ∈ stA.holder then stA.holder else stA.holder ++ [c] }

/-- `SensorService::enable` (state slice; `accessOk` abstracts
`canAccessSensor`, `halBatchOk`/`halActivateOk` the HAL calls).  Also
returns the wakelock / replay-delivery actions it performs. -/
def enable (sensors : SensorRegistry) (st : ServiceState) (c : ConnId) (h : Handle)
    (accessOk halBatchOk halActivateOk : Bool) :
    ServiceState × Status × List DispatchAction :=
  match sensors h with
  | none => (st, .BAD_VALUE, [])
  | some info =>
    if accessOk = false then (st, .BAD_VALUE, [])
    else if enableModeGateBlocks st.mode st.allowListedPackage
        (st.connState c).package then
      (st, .INVALID_OPERATION, [])
    else
      let p := enableRecordPhase sensors info st c h
      let st2 := enableAddSensor p.1 c h
      if halBatchOk && halActivateOk then (st2, .NO_ERROR, p.2)
      else ((cleanupWithoutDisableLocked st2 c h).1, .UNKNOWN_ERROR, p.2)

/-- `SensorService::disable` (state slice: `cleanupWithoutDisableLocked`
plus a HAL deactivation with no service-state effect). -/
def disable (st : ServiceState) (c : ConnId) (h : Handle) : ServiceState × Status :=
  cleanupWithoutDisableLocked st c h

/-- The record loop of `SensorService::cleanupConnection`, returning the
surviving records, the connection state after the `removeSensor` calls,
and the surviving virtual-sensor set. -/
def cleanupConnectionRecords (c : ConnId) :
    List (Handle × SensorRecord) → ConnState → List Handle →
    List (Handle × SensorRecord) × ConnState × List Handle
  | [], cs, virt => ([], cs, virt)
  | (h, record) :: rest, cs, virt =>
      let cs1 :=
        if h ∈ cs.subscribed then { cs with subscribed := cs.subscribed.erase h }
        else cs
      let conns' := record.connections.erase c
      if conns'.isEmpty then
        cleanupConnectionRecords c rest cs1 (virt.erase h)
      else
        let q := cleanupConnectionRecords c rest cs1 virt
        ((h, ⟨conns'⟩) :: q.1, q.2.1, q.2.2)

/-- `SensorService::cleanupConnection(SensorEventConnection*)`. -/
def cleanupConnection (st : ServiceState) (c : ConnId) : ServiceState :=
  let q := cleanupConnectionRecords c st.activeSensors (st.connState c)
    st.activeVirtualSensors
  let st1 := { st with activeSensors := q.1, activeVirtualSensors := q.2.2 }
  let st2 := setConn st1 c q.2.1
  let st3 := { st2 with holder := st2.holder.erase c }
  if connNeedsWakeLock (st3.connState c) then (checkWakeLockStateLocked st3).1
  else st3

/-- `SensorService::recordLastValueLocked`: update the recent-event
cache for non-meta events of sensors that have a cache entry. -/
def recordLastValueLocked (st : ServiceState) (buffer : List SensorsEvent) :
    ServiceState :=
  buffer.foldl (fun st e =>
    if e.type = SENSOR_TYPE_META_DATA ∨ e.type = SENSOR_TYPE_DYNAMIC_SENSOR_META ∨
        e.type = SENSOR_TYPE_ADDITIONAL_INFO then st
    else
      match st.recent e.sensor with
      | some _ =>
          { st with recent := fun h' =>
              if h' = e.sensor then some ⟨e, false⟩ else st.recent h' }
      | none => st) st

/-- The virtual-sensor expansion loop of `threadLoop`: for each input
event and each active virtual sensor, `process` yields at most one
output; outputs stop being appended once the buffer bound is reached. -/
def expandVirtualLoop (process : Handle → SensorsEvent → Option SensorsEvent)
    (maxBuf count : Nat) (active : List Handle) (events : List SensorsEvent) :
    List SensorsEvent :=
  events.foldl (fun k e =>
    active.foldl (fun k h =>
      if maxBuf ≤ count + k.length then k
      else
        match process h e with
        | some out => k ++ [out]
        | none => k) k) []

/-- The fanout loop inside `sendEventsToAllClients`: send to each
connection of the snapshot, accumulate `needsWakeLock`, and run the
one-shot cleanup. -/
def fanoutFold (sensors : SensorRegistry) (buffer : List SensorsEvent) :
    List ConnId → ServiceState → ServiceState × Bool × List DispatchAction
  | [], st => (st, false, [])
  | c :: rest, st =>
      let cs' := connSendEvents sensors (st.connState c) buffer true
      let st1 := setConn st c cs'
      let st2 :=
        if connHasOneShotSensors sensors cs' then
          cleanupAutoDisabledSensorLocked sensors st1 c buffer
        else st1
      let q := fanoutFold sensors buffer rest st2
      (q.1, connNeedsWakeLock cs' || q.2.1, .send c buffer :: q.2.2)

/-- `SensorService::sendEventsToAllClients`. -/
def sendEventsToAllClients (sensors : SensorRegistry) (st : ServiceState)
    (buffer : List SensorsEvent) : ServiceState × List DispatchAction :=
  if (fanoutFold sensors buffer st.holder st).1.wakeLockAcquired &&
      !(fanoutFold sensors buffer st.holder st).2.1 then
    ({ (fanoutFold sensors buffer st.holder st).1 with
        wakeLockAcquired :=
          (setWakeLockAcquiredLocked
            (fanoutFold sensors buffer st.holder st).1.wakeLockAcquired false).1 },
      (fanoutFold sensors buffer st.holder st).2.2 ++
        (setWakeLockAcquiredLocked
          (fanoutFold sensors buffer st.holder st).1.wakeLockAcquired false).2)
  else ((fanoutFold sensors buffer st.holder st).1,
    (fanoutFold sensors buffer st.holder st).2.2)

/-- One iteration of the dispatch loop of `SensorService::threadLoop`
(successful poll path): count wake events and acquire the wakelock,
record last values, run virtual-sensor expansion and (when anything was
appended) the timestamp sort, then fan out.  `process` abstracts the
virtual sensors' `process` methods and `maxBuf` the receive-buffer
capacity. -/
def threadLoopIteration (sensors : SensorRegistry)
    (process : Handle → SensorsEvent → Option SensorsEvent) (maxBuf : Nat)
    (st : ServiceState) (polled : List SensorsEvent) :
    ServiceState × List DispatchAction :=
  let wakeEvents := (polled.filter (isWakeUpSensorEvent sensors)).length
  let p :=
    if 0 < wakeEvents then
      let q := setWakeLockAcquiredLocked st.wakeLockAcquired true
      (q.1, q.2 ++ [DispatchAction.wakeLockHandled wakeEvents])
    else (st.wakeLockAcquired, [])
  let st1 := { st with wakeLockAcquired := p.1 }
  let st2 := recordLastValueLocked st1 polled
  let expanded :=
    if 0 < polled.length ∧ ¬ st2.activeVirtualSensors.isEmpty then
      expandVirtualLoop process maxBuf polled.length st2.activeVirtualSensors polled
    else []
  let st3 := recordLastValueLocked st2 expanded
  let buffer :=
    if 0 < expanded.length then sortEventBuffer (polled ++ expanded) else polled
  let r := sendEventsToAllClients sensors st3 buffer
  (r.1, p.2 ++ r.2)

/-- Pair every action of a trace with the wakelock state just before it
(replaying acquires and releases from the given initial state). -/
def locksBefore (wl : Bool) : List DispatchAction → List (Bool × DispatchAction)
  | [] => []
  | a :: rest =>
      (wl, a) ::
        locksBefore
          (match a with
           | .acquire => true
           | .release => false
           | _ => wl) rest

/-! ### Trace utilities and basic lemmas -/

def isSendAction : DispatchAction → Bool
  | .send _ _ => true
  | _ => false

/-- The wakelock state after replaying a trace. -/
def lockAfter (wl : Bool) : List DispatchAction → Bool
  | [] => wl
  | a :: rest =>
      lockAfter
        (match a with
         | .acquire => true
         | .release => false
         | _ => wl) rest

theorem locksBefore_append (wl : Bool) (t1 t2 : List DispatchAction) :
    locksBefore wl (t1 ++ t2) =
      locksBefore wl t1 ++ locksBefore (lockAfter wl t1) t2 := by
  induction t1 generalizing wl with
  | nil => simp [locksBefore, lockAfter]
  | cons a t1 ih => simp [locksBefore, lockAfter, ih]

theorem locksBefore_mem_snd {wl : Bool} {tr : List DispatchAction}
    {p : Bool × DispatchAction} (hp : p ∈ locksBefore wl tr) : p.2 ∈ tr := by
  induction tr generalizing wl with
  | nil => simp [locksBefore] at hp
  | cons a rest ih =>
      simp only [locksBefore, List.mem_cons] at hp
      rcases hp with rfl | hp
      · simp
      · exact List.mem_cons_of_mem _ (ih hp)

theorem locksBefore_const {wl : Bool} {tr : List DispatchAction}
    (hconst : ∀ a ∈ tr, a ≠ DispatchAction.acquire ∧ a ≠ DispatchAction.release) :
    ∀ p ∈ locksBefore wl tr, p.1 = wl := by
  induction tr generalizing wl with
  | nil => simp [locksBefore]
  | cons a rest ih =>
      intro p hp
      have ha := hconst a (by simp)
      have hrest : ∀ x ∈ rest, x ≠ DispatchAction.acquire ∧
          x ≠ DispatchAction.release := fun x hx => hconst x (by simp [hx])
      cases a with
      | acquire => exact absurd rfl ha.1
      | release => exact absurd rfl ha.2
      | wakeLockHandled n =>
          simp only [locksBefore, List.mem_cons] at hp
          rcases hp with rfl | hp
          · rfl
          · exact ih hrest p hp
      | send c evs =>
          simp only [locksBefore, List.mem_cons] at hp
          rcases hp with rfl | hp
          · rfl
          · exact ih hrest p hp

theorem setWakeLockAcquiredLocked_true (wl : Bool) :
    (setWakeLockAcquiredLocked wl true).1 = true ∧
      ((setWakeLockAcquiredLocked wl true).2 = [] ∨
        (setWakeLockAcquiredLocked wl true).2 = [DispatchAction.acquire]) := by
  cases wl <;> simp [setWakeLockAcquiredLocked]

theorem checkWakeLockStateLocked_trace (st : ServiceState) :
    (checkWakeLockStateLocked st).2 = [] ∨
      (checkWakeLockStateLocked st).2 = [DispatchAction.release] := by
  unfold checkWakeLockStateLocked setWakeLockAcquiredLocked
  split_ifs <;> simp_all

theorem cleanupConnStateUpdate_fields (st : ServiceState) (c : ConnId)
    (h : Handle) :
    (cleanupConnStateUpdate st c h).activeSensors = st.activeSensors ∧
    (cleanupConnStateUpdate st c h).activeVirtualSensors =
      st.activeVirtualSensors ∧
    (cleanupConnStateUpdate st c h).recent = st.recent ∧
    (cleanupConnStateUpdate st c h).wakeLockAcquired = st.wakeLockAcquired ∧
    (cleanupConnStateUpdate st c h).connState = fun x =>
      if x = c then
        { st.connState c with subscribed := (st.connState c).subscribed.erase h }
      else st.connState x := by
  unfold cleanupConnStateUpdate
  split <;> exact ⟨rfl, rfl, rfl, rfl, rfl⟩

theorem cleanupRecordUpdate_fields (st : ServiceState) (h : Handle)
    (record : SensorRecord) (c : ConnId) :
    (cleanupRecordUpdate st h record c).connState = st.connState ∧
    (cleanupRecordUpdate st h record c).recent = st.recent ∧
    (cleanupRecordUpdate st h record c).wakeLockAcquired =
      st.wakeLockAcquired ∧
    (cleanupRecordUpdate st h record c).holder = st.holder := by
  unfold cleanupRecordUpdate
  split <;> exact ⟨rfl, rfl, rfl, rfl⟩

theorem cleanupWithoutDisableLocked_recent (st : ServiceState) (c : ConnId)
    (h : Handle) : (cleanupWithoutDisableLocked st c h).1.recent = st.recent := by
  unfold cleanupWithoutDisableLocked
  rcases hrec : lookupRec st.activeSensors h with _ | record
  · rfl
  · dsimp only
    rw [(cleanupRecordUpdate_fields _ _ _ _).2.1,
      (cleanupConnStateUpdate_fields _ _ _).2.2.1]

theorem enableAddSensor_parts (st : ServiceState) (c : ConnId) (h : Handle) :
    (enableAddSensor st c h).activeSensors = st.activeSensors ∧
    (enableAddSensor st c h).recent = st.recent ∧
    (enableAddSensor st c h).wakeLockAcquired = st.wakeLockAcquired := by
  by_cases hsub : h ∈ (st.connState c).subscribed <;>
    simp [enableAddSensor, setConn, hsub]

theorem markRecentStale_activeSensors (st : ServiceState) (h : Handle) :
    (markRecentStale st h).activeSensors = st.activeSensors := by
  unfold markRecentStale
  rcases hr : st.recent h with _ | entry <;> rfl

theorem markRecentStale_wakeLock (st : ServiceState) (h : Handle) :
    (markRecentStale st h).wakeLockAcquired = st.wakeLockAcquired := by
  unfold markRecentStale
  rcases hr : st.recent h with _ | entry <;> rfl

theorem enable_eq {sensors : SensorRegistry} {st : ServiceState} {c : ConnId}
    {h : Handle} {info : SensorInfo} (halBatchOk halActivateOk : Bool)
    (hs : sensors h = some info)
    (hgate : enableModeGateBlocks st.mode st.allowListedPackage
      (st.connState c).package = false) :
    enable sensors st c h true halBatchOk halActivateOk =
      (let p := enableRecordPhase sensors info st c h
       let st2 := enableAddSensor p.1 c h
       if halBatchOk && halActivateOk then (st2, .NO_ERROR, p.2)
       else ((cleanupWithoutDisableLocked st2 c h).1, .UNKNOWN_ERROR, p.2)) := by
  unfold enable
  rw [hs, hgate]
  rfl

theorem enableRecordPhase_eq_none {sensors : SensorRegistry} {info : SensorInfo}
    {st : ServiceState} {c : ConnId} {h : Handle}
    (hrec : lookupRec st.activeSensors h = none) :
    enableRecordPhase sensors info st c h = (enableNewRecord info st c h, []) := by
  unfold enableRecordPhase
  rw [hrec]

theorem enableRecordPhase_eq_some {sensors : SensorRegistry} {info : SensorInfo}
    {st : ServiceState} {c : ConnId} {h : Handle} {record : SensorRecord}
    (hrec : lookupRec st.activeSensors h = some record) :
    enableRecordPhase sensors info st c h =
      (if c ∈ record.connections then (st, [])
       else
         let stA :=
           { st with activeSensors := updateRec st.activeSensors h ⟨c :: record.connections⟩ }
         if info.reportingMode = SensorReportingMode.onChange then
           enableOnChangeReplay sensors stA c h
         else (stA, [])) := by
  unfold enableRecordPhase
  rw [hrec]

theorem markRecentStale_recent_self {st : ServiceState} {h : Handle}
    {entry : RecentEntry} (hr : st.recent h = some entry) :
    (markRecentStale st h).recent h = some { entry with stale := true } := by
  unfold markRecentStale
  rw [hr]
  show (if h = h then some { entry with stale := true } else st.recent h) =
    some { entry with stale := true }
  rw [if_pos rfl]

theorem enableNewRecord_activeSensors (info : SensorInfo) (st : ServiceState)
    (c : ConnId) (h : Handle) :
    (enableNewRecord info st c h).activeSensors = (h, ⟨[c]⟩) :: st.activeSensors := by
  unfold enableNewRecord
  by_cases hoc : info.reportingMode = SensorReportingMode.onChange <;>
    by_cases hv : info.isVirtual = true <;>
      simp [hoc, hv, markRecentStale_activeSensors]

theorem enableNewRecord_recent_onChange {info : SensorInfo} {st : ServiceState}
    {c : ConnId} {h : Handle} {entry : RecentEntry}
    (hoc : info.reportingMode = SensorReportingMode.onChange)
    (hentry : st.recent h = some entry) :
    (enableNewRecord info st c h).recent h = some { entry with stale := true } := by
  unfold enableNewRecord
  rw [if_pos hoc]
  by_cases hv : info.isVirtual = true
  · rw [if_pos hv]
    exact markRecentStale_recent_self hentry
  · rw [if_neg hv]
    exact markRecentStale_recent_self hentry

theorem enableOnChangeReplay_eq_current {sensors : SensorRegistry}
    {st : ServiceState} {c : ConnId} {h : Handle} {entry : RecentEntry}
    (hr : st.recent h = some entry) (hstale : entry.stale = false)
    (hver : entry.ev.version = EVENT_VERSION) :
    enableOnChangeReplay sensors st c h =
      enableReplaySend sensors st c { entry.ev with sensor := h } := by
  unfold enableOnChangeReplay
  rw [hr]
  show (if entry.stale = true then (st, []) else _) = _
  rw [if_neg (by simp [hstale])]
  show (if ({ entry.ev with sensor := h } : SensorsEvent).version =
      EVENT_VERSION then _ else _) = _
  rw [if_pos hver]

theorem filter_isSend_sandwich {t1 t2 : List DispatchAction} {c : ConnId}
    {evs : List SensorsEvent}
    (h1 : t1 = [] ∨ t1 = [DispatchAction.acquire])
    (h2 : t2 = [] ∨ t2 = [DispatchAction.release]) :
    (t1 ++ [DispatchAction.send c evs] ++ t2).filter isSendAction =
      [DispatchAction.send c evs] := by
  rcases h1 with rfl | rfl <;> rcases h2 with rfl | rfl <;> simp [isSendAction]

theorem ite_check_trace {c : Prop} [Decidable c] (st' : ServiceState) :
    ((if c then checkWakeLockStateLocked st' else (st', [])).2 = [] ∨
      (if c then checkWakeLockStateLocked st' else (st', [])).2 =
        [DispatchAction.release]) := by
  by_cases hc : c
  · rw [if_pos hc]
    exact checkWakeLockStateLocked_trace st'
  · rw [if_neg hc]
    exact Or.inl rfl

theorem lockAfter_q (sensors : SensorRegistry) (ev : SensorsEvent) (wl : Bool)
    (hwake : isWakeUpSensorEvent sensors ev = true) :
    lockAfter wl
      ((if isWakeUpSensorEvent sensors ev && !wl then
          setWakeLockAcquiredLocked wl true
        else (wl, [])).2) = true := by
  cases wl
  · rw [hwake]
    rfl
  · rw [if_neg (by simp)]
    rfl

theorem enableReplaySend_trace (sensors : SensorRegistry) (st : ServiceState)
    (c : ConnId) (ev : SensorsEvent) :
    ∃ t1 t2, (enableReplaySend sensors st c ev).2 =
        t1 ++ [DispatchAction.send c [ev]] ++ t2 ∧
      (t1 = [] ∨ t1 = [DispatchAction.acquire]) ∧
      (t2 = [] ∨ t2 = [DispatchAction.release]) ∧
      (isWakeUpSensorEvent sensors ev = true →
        lockAfter st.wakeLockAcquired t1 = true) := by
  unfold enableReplaySend
  refine ⟨_, _, rfl, ?_, ?_, ?_⟩
  · split
    · exact (setWakeLockAcquiredLocked_true st.wakeLockAcquired).2
    · exact Or.inl rfl
  · exact ite_check_trace _
  · intro hwake
    exact lockAfter_q sensors ev st.wakeLockAcquired hwake

theorem replay_locks {wl : Bool} {t1 t2 : List DispatchAction} {c : ConnId}
    {evs : List SensorsEvent}
    (h1 : t1 = [] ∨ t1 = [DispatchAction.acquire])
    (h2 : t2 = [] ∨ t2 = [DispatchAction.release])
    (hla : lockAfter wl t1 = true) :
    ∀ p ∈ locksBefore wl (t1 ++ [DispatchAction.send c evs] ++ t2),
      isSendAction p.2 = true → p.1 = true := by
  intro p hp hsend
  rw [locksBefore_append, locksBefore_append] at hp
  rcases List.mem_append.mp hp with hp | hp
  · rcases List.mem_append.mp hp with hp | hp
    · exfalso
      have hmem := locksBefore_mem_snd hp
      rcases h1 with rfl | rfl
      · simp at hmem
      · simp only [List.mem_singleton] at hmem
        rw [hmem] at hsend
        simp [isSendAction] at hsend
    · have hpe : p = (lockAfter wl t1, DispatchAction.send c evs) := by
        simpa [locksBefore] using hp
      rw [hpe, hla]
  · exfalso
    have hmem := locksBefore_mem_snd hp
    rcases h2 with rfl | rfl
    · simp at hmem
    · simp only [List.mem_singleton] at hmem
      rw [hmem] at hsend
      simp [isSendAction] at hsend

/-- C7: on `enable` of an on-change sensor — if no Active Sensor Record
existed, nothing is replayed, a fresh record (owning exactly this
connection) is created and the recent-event entry is marked stale; if
the record existed, the connection is newly added to it and a non-stale
well-formed recent event exists, exactly that event is sent once to
this connection during the enable call, with the wakelock acquired
before the send when it is a wake-up event.  (A record destroyed
between a disable and this enable falls under the first case: no
replayed value.) -/
theorem C7_theorem (sensors : SensorRegistry) (st : ServiceState) (c : ConnId)
    (h : Handle) (halBatchOk halActivateOk : Bool) (info : SensorInfo)
    (hs : sensors h = some info)
    (hoc : info.reportingMode = SensorReportingMode.onChange)
    (hgate : enableModeGateBlocks st.mode st.allowListedPackage
      (st.connState c).package = false) :
    (lookupRec st.activeSensors h = none →
      ((enable sensors st c h true halBatchOk halActivateOk).2.2.filter
          isSendAction = []) ∧
      (halBatchOk = true → halActivateOk = true →
        lookupRec (enable sensors st c h true halBatchOk
            halActivateOk).1.activeSensors h = some ⟨[c]⟩) ∧
      (∀ entry, st.recent h = some entry →
        (enable sensors st c h true halBatchOk halActivateOk).1.recent h =
          some { entry with stale := true })) ∧
    (∀ record entry, lookupRec st.activeSensors h = some record →
      c ∉ record.connections → st.recent h = some entry →
      entry.stale = false → entry.ev.version = EVENT_VERSION →
      ((enable sensors st c h true halBatchOk halActivateOk).2.2.filter
          isSendAction =
        [DispatchAction.send c [{ entry.ev with sensor := h }]]) ∧
      (isWakeUpSensorEvent sensors { entry.ev with sensor := h } = true →
        ∀ p ∈ locksBefore st.wakeLockAcquired
            (enable sensors st c h true halBatchOk halActivateOk).2.2,
          isSendAction p.2 = true → p.1 = true)) := by
  constructor
  · intro hrec
    rw [enable_eq halBatchOk halActivateOk hs hgate,
      enableRecordPhase_eq_none hrec]
    refine ⟨?_, ?_, ?_⟩
    · split <;> rfl
    · intro hb ha
      rw [hb, ha]
      show lookupRec (enableAddSensor (enableNewRecord info st c h) c h).activeSensors
        h = some ⟨[c]⟩
      rw [(enableAddSensor_parts _ c h).1, enableNewRecord_activeSensors]
      simp [lookupRec]
    · intro entry hentry
      split
      · show (enableAddSensor (enableNewRecord info st c h) c h).recent h = _
        rw [(enableAddSensor_parts _ c h).2.1]
        exact enableNewRecord_recent_onChange hoc hentry
      · show (cleanupWithoutDisableLocked
            (enableAddSensor (enableNewRecord info st c h) c h) c h).1.recent h = _
        rw [cleanupWithoutDisableLocked_recent, (enableAddSensor_parts _ c h).2.1]
        exact enableNewRecord_recent_onChange hoc hentry
  · intro record entry hrec hnotmem hentry hstale hver
    rw [enable_eq halBatchOk halActivateOk hs hgate,
      enableRecordPhase_eq_some hrec, if_neg hnotmem, if_pos hoc,
      @enableOnChangeReplay_eq_current sensors
        { st with activeSensors := updateRec st.activeSensors h ⟨c :: record.connections⟩ }
        c h entry hentry hstale hver]
    obtain ⟨t1, t2, htr, h1, h2, hla⟩ :=
      enableReplaySend_trace sensors
        { st with activeSensors := updateRec st.activeSensors h ⟨c :: record.connections⟩ }
        c { entry.ev with sensor := h }
    constructor
    · split
      · show ((enableReplaySend sensors
            { st with activeSensors := updateRec st.activeSensors h ⟨c :: record.connections⟩ }
            c { entry.ev with sensor := h }).2).filter isSendAction = _
        rw [htr]
        exact filter_isSend_sandwich h1 h2
      · show ((enableReplaySend sensors
            { st with activeSensors := updateRec st.activeSensors h ⟨c :: record.connections⟩ }
            c { entry.ev with sensor := h }).2).filter isSendAction = _
        rw [htr]
        exact filter_isSend_sandwich h1 h2
    · intro hwake
      split
      · show ∀ p ∈ locksBefore st.wakeLockAcquired
            (enableReplaySend sensors
              { st with activeSensors := updateRec st.activeSensors h ⟨c :: record.connections⟩ }
              c { entry.ev with sensor := h }).2,
          isSendAction p.2 = true → p.1 = true
        rw [htr]
        exact replay_locks h1 h2 (hla hwake)
      · show ∀ p ∈ locksBefore st.wakeLockAcquired
            (enableReplaySend sensors
              { st with activeSensors := updateRec st.activeSensors h ⟨c :: record.connections⟩ }
              c { entry.ev with sensor := h }).2,
          isSendAction p.2 = true → p.1 = true
        rw [htr]
        exact replay_locks h1 h2 (hla hwake)

theorem C7_witness :
    (enable
        (fun hh => if hh = (1 : Int) then
          some ⟨true, SensorReportingMode.onChange, false⟩ else none)
        ⟨[((1 : Int), ⟨[0]⟩)], [],
          (fun c => if c = 0 then ⟨[1], 0, []⟩ else ⟨[], 0, []⟩), [0],
          (fun hh => if hh = (1 : Int) then
            some ⟨⟨1, 5, 10, 104, 0⟩, false⟩ else none),
          false, .NORMAL, []⟩
        5 1 true true true).2.2.filter isSendAction =
      [DispatchAction.send 5 [⟨1, 5, 10, 104, 0⟩]] :=
  ((C7_theorem
      (fun hh => if hh = (1 : Int) then
        some ⟨true, SensorReportingMode.onChange, false⟩ else none)
      ⟨[((1 : Int), ⟨[0]⟩)], [],
        (fun c => if c = 0 then ⟨[1], 0, []⟩ else ⟨[], 0, []⟩), [0],
        (fun hh => if hh = (1 : Int) then
          some ⟨⟨1, 5, 10, 104, 0⟩, false⟩ else none),
        false, .NORMAL, []⟩
      5 1 true true ⟨true, SensorReportingMode.onChange, false⟩
      (by decide) (by decide) (by decide)).2
    ⟨[0]⟩ ⟨⟨1, 5, 10, 104, 0⟩, false⟩
    (by decide) (by decide) (by decide) (by decide) (by decide)).1

/-! ### C3: wakelock discipline of the dispatch iteration -/

theorem cleanupWithoutDisableLocked_wakeLock (st : ServiceState) (c : ConnId)
    (h : Handle) :
    (cleanupWithoutDisableLocked st c h).1.wakeLockAcquired =
      st.wakeLockAcquired := by
  unfold cleanupWithoutDisableLocked
  rcases hrec : lookupRec st.activeSensors h with _ | record
  · rfl
  · dsimp only
    rw [(cleanupRecordUpdate_fields _ _ _ _).2.2.1,
      (cleanupConnStateUpdate_fields _ _ _).2.2.2.1]

theorem cleanupWithoutDisableLocked_refCount (st : ServiceState) (c : ConnId)
    (h : Handle) (x : ConnId) :
    ((cleanupWithoutDisableLocked st c h).1.connState x).wakeLockRefCount =
      (st.connState x).wakeLockRefCount := by
  unfold cleanupWithoutDisableLocked
  rcases hrec : lookupRec st.activeSensors h with _ | record
  · rfl
  · dsimp only
    rw [(cleanupRecordUpdate_fields _ _ _ _).1,
      (cleanupConnStateUpdate_fields _ _ _).2.2.2.2]
    by_cases hx : x = c <;> simp [hx]

theorem cleanupAutoDisabled_wakeLock (sensors : SensorRegistry)
    (st : ServiceState) (c : ConnId) (buffer : List SensorsEvent) :
    (cleanupAutoDisabledSensorLocked sensors st c buffer).wakeLockAcquired =
      st.wakeLockAcquired := by
  unfold cleanupAutoDisabledSensorLocked
  induction buffer generalizing st with
  | nil => rfl
  | cons e rest ih =>
      rw [List.foldl_cons, ih]
      split
      · split
        · split
          · rw [cleanupWithoutDisableLocked_wakeLock]
          · rfl
        · rfl
      · rfl

theorem cleanupAutoDisabled_refCount (sensors : SensorRegistry)
    (st : ServiceState) (c : ConnId) (buffer : List SensorsEvent) (x : ConnId) :
    ((cleanupAutoDisabledSensorLocked sensors st c buffer).connState
        x).wakeLockRefCount = ((st.connState x)).wakeLockRefCount := by
  unfold cleanupAutoDisabledSensorLocked
  induction buffer generalizing st with
  | nil => rfl
  | cons e rest ih =>
      rw [List.foldl_cons, ih]
      split
      · split
        · split
          · rw [cleanupWithoutDisableLocked_refCount]
          · rfl
        · rfl
      · rfl

theorem fanoutFold_wakeLock (sensors : SensorRegistry)
    (buffer : List SensorsEvent) (conns : List ConnId) (st : ServiceState) :
    (fanoutFold sensors buffer conns st).1.wakeLockAcquired =
      st.wakeLockAcquired := by
  induction conns generalizing st with
  | nil => rfl
  | cons c rest ih =>
      show (fanoutFold sensors buffer rest _).1.wakeLockAcquired = _
      rw [ih]
      split
      · rw [cleanupAutoDisabled_wakeLock]
        rfl
      · rfl

theorem fanoutFold_trace (sensors : SensorRegistry)
    (buffer : List SensorsEvent) (conns : List ConnId) (st : ServiceState) :
    ∀ a ∈ (fanoutFold sensors buffer conns st).2.2,
      ∃ cc, a = DispatchAction.send cc buffer := by
  induction conns generalizing st with
  | nil => simp [fanoutFold]
  | cons c rest ih =>
      intro a ha
      show ∃ cc, a = DispatchAction.send cc buffer
      have ha' : a ∈ DispatchAction.send c buffer ::
          (fanoutFold sensors buffer rest _).2.2 := ha
      rcases List.mem_cons.mp ha' with rfl | ha'
      · exact ⟨c, rfl⟩
      · exact ih _ a ha'

theorem fanoutFold_refCount_mono (sensors : SensorRegistry)
    (buffer : List SensorsEvent) (conns : List ConnId) (st : ServiceState)
    (x : ConnId) :
    (st.connState x).wakeLockRefCount ≤
      ((fanoutFold sensors buffer conns st).1.connState x).wakeLockRefCount := by
  induction conns generalizing st with
  | nil => exact le_refl _
  | cons c rest ih =>
      refine le_trans ?_ (ih _)
      show (st.connState x).wakeLockRefCount ≤ _
      split
      · rw [cleanupAutoDisabled_refCount]
        by_cases hx : x = c <;> simp [setConn, connSendEvents, hx]
      · by_cases hx : x = c <;> simp [setConn, connSendEvents, hx]

theorem fanoutFold_needs_false (sensors : SensorRegistry)
    (buffer : List SensorsEvent) (conns : List ConnId) (st : ServiceState)
    (hfin : ∀ x ∈ conns,
      connNeedsWakeLock ((fanoutFold sensors buffer conns st).1.connState x) =
        false) :
    (fanoutFold sensors buffer conns st).2.1 = false := by
  induction conns generalizing st with
  | nil => rfl
  | cons c rest ih =>
      show (connNeedsWakeLock (connSendEvents sensors (st.connState c) buffer
        true) || (fanoutFold sensors buffer rest _).2.1) = false
      have hc := hfin c (by simp)
      have hcs : connNeedsWakeLock
          (connSendEvents sensors (st.connState c) buffer true) = false := by
        have hmono := fanoutFold_refCount_mono sensors buffer rest
          (if connHasOneShotSensors sensors
              (connSendEvents sensors (st.connState c) buffer true) then
            cleanupAutoDisabledSensorLocked sensors
              (setConn st c (connSendEvents sensors (st.connState c) buffer true))
              c buffer
          else
            setConn st c (connSendEvents sensors (st.connState c) buffer true)) c
        have hmid : ((if connHasOneShotSensors sensors
            (connSendEvents sensors (st.connState c) buffer true) then
              cleanupAutoDisabledSensorLocked sensors
                (setConn st c (connSendEvents sensors (st.connState c) buffer true))
                c buffer
            else
              setConn st c (connSendEvents sensors (st.connState c) buffer
                true)).connState c).wakeLockRefCount =
            (connSendEvents sensors (st.connState c) buffer
              true).wakeLockRefCount := by
          split
          · rw [cleanupAutoDisabled_refCount]
            simp [setConn]
          · simp [setConn]
        rw [hmid] at hmono
        have hfc : connNeedsWakeLock ((fanoutFold sensors buffer rest
            (if connHasOneShotSensors sensors
                (connSendEvents sensors (st.connState c) buffer true) then
              cleanupAutoDisabledSensorLocked sensors
                (setConn st c (connSendEvents sensors (st.connState c) buffer true))
                c buffer
            else
              setConn st c (connSendEvents sensors (st.connState c) buffer
                true))).1.connState c) = false := hc
        simp only [connNeedsWakeLock, decide_eq_false_iff_not, not_lt,
          Nat.le_zero] at hfc ⊢
        omega
      rw [hcs]
      simp only [Bool.false_or]
      exact ih _ (fun x hx => hfin x (by simp [hx]))

theorem setWakeLockAcquiredLocked_false_fst (wl : Bool) :
    (setWakeLockAcquiredLocked wl false).1 = false := by
  cases wl <;> rfl

theorem sendEventsToAllClients_trace (sensors : SensorRegistry)
    (st : ServiceState) (buffer : List SensorsEvent) :
    ∃ trS trR, (sendEventsToAllClients sensors st buffer).2 = trS ++ trR ∧
      (∀ a ∈ trS, ∃ cc, a = DispatchAction.send cc buffer) ∧
      (trR = [] ∨ trR = [DispatchAction.release]) := by
  unfold sendEventsToAllClients
  split
  · next hcond =>
      refine ⟨_, _, rfl, fanoutFold_trace sensors buffer st.holder st, ?_⟩
      have hwl : (fanoutFold sensors buffer st.holder st).1.wakeLockAcquired =
          true := by
        simp only [Bool.and_eq_true] at hcond
        exact hcond.1
      rw [hwl]
      exact Or.inr rfl
  · exact ⟨_, [], (List.append_nil _).symm,
      fanoutFold_trace sensors buffer st.holder st, Or.inl rfl⟩

theorem sendEventsToAllClients_connState (sensors : SensorRegistry)
    (st : ServiceState) (buffer : List SensorsEvent) :
    (sendEventsToAllClients sensors st buffer).1.connState =
      (fanoutFold sensors buffer st.holder st).1.connState := by
  unfold sendEventsToAllClients
  split <;> rfl

theorem sendEventsToAllClients_release (sensors : SensorRegistry)
    (st : ServiceState) (buffer : List SensorsEvent)
    (hfin : ∀ c ∈ st.holder,
      connNeedsWakeLock
        ((sendEventsToAllClients sensors st buffer).1.connState c) = false) :
    (sendEventsToAllClients sensors st buffer).1.wakeLockAcquired = false := by
  rw [sendEventsToAllClients_connState] at hfin
  unfold sendEventsToAllClients
  split
  · exact setWakeLockAcquiredLocked_false_fst _
  · next hcond =>
      have hneeds : (fanoutFold sensors buffer st.holder st).2.1 = false :=
        fanoutFold_needs_false sensors buffer st.holder st hfin
      rw [hneeds] at hcond
      simp only [Bool.not_false, Bool.and_true] at hcond
      simpa using hcond

theorem recordLastValueLocked_parts (st : ServiceState)
    (buffer : List SensorsEvent) :
    (recordLastValueLocked st buffer).holder = st.holder ∧
    (recordLastValueLocked st buffer).connState = st.connState ∧
    (recordLastValueLocked st buffer).wakeLockAcquired = st.wakeLockAcquired := by
  unfold recordLastValueLocked
  induction buffer generalizing st with
  | nil => exact ⟨rfl, rfl, rfl⟩
  | cons e rest ih =>
      rw [List.foldl_cons]
      refine ⟨?_, ?_, ?_⟩
      · rw [(ih _).1]
        split
        · rfl
        · split <;> rfl
      · rw [(ih _).2.1]
        split
        · rfl
        · split <;> rfl
      · rw [(ih _).2.2]
        split
        · rfl
        · split <;> rfl

theorem lockAfter_front (wl : Bool) (n : Nat) :
    lockAfter wl ((setWakeLockAcquiredLocked wl true).2 ++
      [DispatchAction.wakeLockHandled n]) = true := by
  cases wl <;> rfl

theorem locks_front_back {wl : Bool} {n : Nat} {tr2 : List DispatchAction}
    {buffer : List SensorsEvent}
    (hdecomp : ∃ trS trR, tr2 = trS ++ trR ∧
      (∀ a ∈ trS, ∃ cc, a = DispatchAction.send cc buffer) ∧
      (trR = [] ∨ trR = [DispatchAction.release])) :
    ∀ p ∈ locksBefore wl ((setWakeLockAcquiredLocked wl true).2 ++
        [DispatchAction.wakeLockHandled n] ++ tr2),
      isSendAction p.2 = true → p.1 = true := by
  obtain ⟨trS, trR, htr2, hSsends, hRrel⟩ := hdecomp
  intro p hp hsend
  rw [htr2, locksBefore_append] at hp
  rcases List.mem_append.mp hp with hp | hp
  · exfalso
    have hmem := locksBefore_mem_snd hp
    have hne : isSendAction p.2 = false := by
      rcases (setWakeLockAcquiredLocked_true wl).2 with h1 | h1 <;> rw [h1] at hmem
      · simp at hmem
        rw [hmem]
        rfl
      · simp at hmem
        rcases hmem with h2 | h2 <;> rw [h2] <;> rfl
    rw [hne] at hsend
    cases hsend
  · rw [lockAfter_front wl n, locksBefore_append] at hp
    rcases List.mem_append.mp hp with hp | hp
    · exact locksBefore_const
        (fun a ha => by
          obtain ⟨cc, rfl⟩ := hSsends a ha
          exact ⟨by simp, by simp⟩) p hp
    · exfalso
      have hmem := locksBefore_mem_snd hp
      rcases hRrel with rfl | rfl
      · simp at hmem
      · simp only [List.mem_singleton] at hmem
        rw [hmem] at hsend
        simp [isSendAction] at hsend

theorem threadLoopIteration_fst (sensors : SensorRegistry)
    (process : Handle → SensorsEvent → Option SensorsEvent) (maxBuf : Nat)
    (st : ServiceState) (polled : List SensorsEvent) :
    ∃ stMid buffer, stMid.holder = st.holder ∧
      (threadLoopIteration sensors process maxBuf st polled).1 =
        (sendEventsToAllClients sensors stMid buffer).1 := by
  simp only [threadLoopIteration]
  by_cases hw : 0 < (polled.filter (isWakeUpSensorEvent sensors)).length
  · rw [if_pos hw]
    refine ⟨_, _, ?_, rfl⟩
    rw [(recordLastValueLocked_parts _ _).1, (recordLastValueLocked_parts _ _).1]
  · rw [if_neg hw]
    refine ⟨_, _, ?_, rfl⟩
    rw [(recordLastValueLocked_parts _ _).1, (recordLastValueLocked_parts _ _).1]

/-- C3: in a dispatch iteration whose polled batch contains a wake-up
event, the wakelock is held at every `send_events` call of the
iteration (acquired up front when not already held); and whenever after
fanout no connection of the snapshot still needs the wakelock, the
iteration ends with the wakelock released. -/
theorem C3_theorem (sensors : SensorRegistry)
    (process : Handle → SensorsEvent → Option SensorsEvent) (maxBuf : Nat)
    (st : ServiceState) (polled : List SensorsEvent) :
    (polled.any (isWakeUpSensorEvent sensors) = true →
      ∀ p ∈ locksBefore st.wakeLockAcquired
          (threadLoopIteration sensors process maxBuf st polled).2,
        isSendAction p.2 = true → p.1 = true) ∧
    ((∀ c ∈ st.holder,
        connNeedsWakeLock
          ((threadLoopIteration sensors process maxBuf st polled).1.connState
            c) = false) →
      (threadLoopIteration sensors process maxBuf st polled).1.wakeLockAcquired =
        false) := by
  constructor
  · intro hany
    have hwE : 0 < (polled.filter (isWakeUpSensorEvent sensors)).length := by
      rcases List.any_eq_true.mp hany with ⟨x, hx, hpx⟩
      exact List.length_pos_of_mem (List.mem_filter.mpr ⟨hx, hpx⟩)
    simp only [threadLoopIteration]
    rw [if_pos hwE]
    exact locks_front_back (sendEventsToAllClients_trace sensors _ _)
  · intro hfin
    obtain ⟨stMid, buffer, hhold, heq⟩ :=
      threadLoopIteration_fst sensors process maxBuf st polled
    rw [heq] at hfin ⊢
    exact sendEventsToAllClients_release sensors stMid buffer
      (fun c hc => hfin c (by rw [← hhold]; exact hc))

theorem C3_witness :
    (threadLoopIteration
        (fun hh => if hh = (1 : Int) then
          some ⟨true, SensorReportingMode.continuous, false⟩ else none)
        (fun _ _ => none) 16
        ⟨[((1 : Int), ⟨[0]⟩)], [],
          (fun c => if c = 0 then ⟨[1], 0, []⟩ else ⟨[], 0, []⟩), [0],
          (fun _ => none), true, .NORMAL, []⟩
        []).1.wakeLockAcquired = false :=
  (C3_theorem
      (fun hh => if hh = (1 : Int) then
        some ⟨true, SensorReportingMode.continuous, false⟩ else none)
      (fun _ _ => none) 16
      ⟨[((1 : Int), ⟨[0]⟩)], [],
        (fun c => if c = 0 then ⟨[1], 0, []⟩ else ⟨[], 0, []⟩), [0],
        (fun _ => none), true, .NORMAL, []⟩
      []).2 (by decide)

/-! ### C4: the Active-Sensor-Record / subscription invariant -/

theorem lookupRec_eq_none_iff {l : List (Handle × SensorRecord)} {h : Handle} :
    lookupRec l h = none ↔ h ∉ l.map Prod.fst := by
  induction l with
  | nil => simp [lookupRec]
  | cons p rest ih =>
      obtain ⟨h0, r0⟩ := p
      simp only [lookupRec, List.map_cons, List.mem_cons]
      by_cases h00 : h0 = h
      · subst h00
        simp
      · rw [if_neg h00, ih]
        constructor
        · intro hn
          push_neg
          exact ⟨fun hc => h00 hc.symm, hn⟩
        · intro hn
          push_neg at hn
          exact hn.2

theorem lookupRec_mem_keys {l : List (Handle × SensorRecord)} {h : Handle}
    {record : SensorRecord} (heq : lookupRec l h = some record) :
    h ∈ l.map Prod.fst := by
  by_contra hmem
  rw [← lookupRec_eq_none_iff] at hmem
  rw [heq] at hmem
  cases hmem

theorem keys_updateRec (l : List (Handle × SensorRecord)) (h : Handle)
    (r : SensorRecord) : (updateRec l h r).map Prod.fst = l.map Prod.fst := by
  induction l with
  | nil => rfl
  | cons p rest ih =>
      obtain ⟨h0, r0⟩ := p
      simp only [updateRec]
      by_cases h00 : h0 = h
      · rw [if_pos h00, h00]
        rfl
      · rw [if_neg h00]
        simp only [List.map_cons, ih]

theorem lookupRec_updateRec_self {l : List (Handle × SensorRecord)} {h : Handle}
    {r0 : SensorRecord} (r : SensorRecord) (hl : lookupRec l h = some r0) :
    lookupRec (updateRec l h r) h = some r := by
  induction l with
  | nil => cases hl
  | cons p rest ih =>
      obtain ⟨h0, r1⟩ := p
      simp only [updateRec, lookupRec] at hl ⊢
      by_cases h00 : h0 = h
      · rw [if_pos h00]
        simp [lookupRec]
      · rw [if_neg h00] at hl ⊢
        simp only [lookupRec, if_neg h00]
        exact ih hl

theorem lookupRec_updateRec_ne {l : List (Handle × SensorRecord)}
    {h h' : Handle} (r : SensorRecord) (hne : h' ≠ h) :
    lookupRec (updateRec l h r) h' = lookupRec l h' := by
  induction l with
  | nil => rfl
  | cons p rest ih =>
      obtain ⟨h0, r0⟩ := p
      simp only [updateRec, lookupRec]
      by_cases h00 : h0 = h
      · rw [if_pos h00]
        simp only [lookupRec]
        rw [if_neg (fun hc => hne hc.symm), if_neg (by rw [h00]; exact fun hc => hne hc.symm)]
      · rw [if_neg h00]
        simp only [lookupRec]
        by_cases h01 : h0 = h'
        · rw [if_pos h01, if_pos h01]
        · rw [if_neg h01, if_neg h01]
          exact ih

theorem keys_removeRec_sublist (l : List (Handle × SensorRecord)) (h : Handle) :
    List.Sublist ((removeRec l h).map Prod.fst) (l.map Prod.fst) := by
  induction l with
  | nil => simp [removeRec]
  | cons p rest ih =>
      obtain ⟨h0, r0⟩ := p
      simp only [removeRec]
      by_cases h00 : h0 = h
      · rw [if_pos h00]
        exact List.sublist_cons_self _ _
      · rw [if_neg h00]
        simp only [List.map_cons]
        exact ih.cons₂ h0

theorem lookupRec_removeRec_self {l : List (Handle × SensorRecord)} {h : Handle}
    (hnd : (l.map Prod.fst).Nodup) : lookupRec (removeRec l h) h = none := by
  induction l with
  | nil => rfl
  | cons p rest ih =>
      obtain ⟨h0, r0⟩ := p
      simp only [removeRec]
      rcases List.nodup_cons.mp hnd with ⟨hnm, hnd'⟩
      by_cases h00 : h0 = h
      · rw [if_pos h00]
        rw [lookupRec_eq_none_iff]
        rw [h00] at hnm
        exact hnm
      · rw [if_neg h00]
        simp only [lookupRec, if_neg h00]
        exact ih hnd'

theorem lookupRec_removeRec_ne {l : List (Handle × SensorRecord)}
    {h h' : Handle} (hne : h' ≠ h) :
    lookupRec (removeRec l h) h' = lookupRec l h' := by
  induction l with
  | nil => rfl
  | cons p rest ih =>
      obtain ⟨h0, r0⟩ := p
      simp only [removeRec, lookupRec]
      by_cases h00 : h0 = h
      · rw [if_pos h00, if_neg (by rw [h00]; exact fun hc => hne hc.symm)]
      · rw [if_neg h00]
        simp only [lookupRec]
        by_cases h01 : h0 = h'
        · rw [if_pos h01, if_pos h01]
        · rw [if_neg h01, if_neg h01]
          exact ih

/-- Well-formedness of the Active Sensor Records: unique keys, every
record nonempty and duplicate-free, record membership matching the
connections' subscription sets, every subscribed handle backed by a
record, and duplicate-free subscription sets. -/
def recordsWellFormed (st : ServiceState) : Prop :=
  (st.activeSensors.map Prod.fst).Nodup ∧
  (∀ h record, lookupRec st.activeSensors h = some record →
    record.connections ≠ [] ∧ record.connections.Nodup ∧
    ∀ c, c ∈ record.connections ↔ h ∈ (st.connState c).subscribed) ∧
  (∀ c h, h ∈ (st.connState c).subscribed →
    lookupRec st.activeSensors h ≠ none) ∧
  (∀ c, (st.connState c).subscribed.Nodup)

/-- The claimed invariant: an Active Sensor Record for `h` exists iff
at least one connection has `h` in its subscription set. -/
def activeRecordInvariant (st : ServiceState) : Prop :=
  ∀ h, lookupRec st.activeSensors h ≠ none ↔
    ∃ c, h ∈ (st.connState c).subscribed

theorem recordsWellFormed_invariant {st : ServiceState}
    (hwf : recordsWellFormed st) : activeRecordInvariant st := by
  obtain ⟨hnd, hrecs, hback, hsubnd⟩ := hwf
  intro h
  constructor
  · intro hne
    rcases hlk : lookupRec st.activeSensors h with _ | record
    · exact absurd hlk hne
    · obtain ⟨hne', hnd', hiff⟩ := hrecs h record hlk
      rcases hconn : record.connections with _ | ⟨c0, rest⟩
      · exact absurd hconn hne'
      · exact ⟨c0, (hiff c0).mp (by rw [hconn]; simp)⟩
  · rintro ⟨c, hc⟩
    exact hback c h hc

theorem erase_eq_nil_of_nodup {l : List ConnId} {c : ConnId}
    (hnd : l.Nodup) (hne : l ≠ []) (hE : l.erase c = []) : l = [c] := by
  rcases l with _ | ⟨a, rest⟩
  · exact absurd rfl hne
  · by_cases hac : a = c
    · subst hac
      rw [List.erase_cons_head] at hE
      rw [hE]
    · rw [List.erase_cons_tail] at hE
      · cases hE
      · simp [hac]

theorem cleanupWithoutDisable_preserves (st : ServiceState) (c : ConnId)
    (h : Handle) (hwf : recordsWellFormed st) :
    recordsWellFormed (cleanupWithoutDisableLocked st c h).1 := by
  obtain ⟨hnd, hrecs, hback, hsubnd⟩ := hwf
  unfold cleanupWithoutDisableLocked
  rcases hrec : lookupRec st.activeSensors h with _ | record
  · exact ⟨hnd, hrecs, hback, hsubnd⟩
  · dsimp only
    obtain ⟨hrne, hrnd, hriff⟩ := hrecs h record hrec
    have hCS := (cleanupConnStateUpdate_fields st c h).2.2.2.2
    have hAS := (cleanupConnStateUpdate_fields st c h).1
    unfold cleanupRecordUpdate
    have hsubs : ∀ x, ((cleanupConnStateUpdate st c h).connState x).subscribed =
        if x = c then ((st.connState c).subscribed).erase h
        else (st.connState x).subscribed := by
      intro x
      rw [hCS]
      by_cases hx : x = c <;> simp [hx]
    split
    · next hE =>
        -- the record dies: it owned only this connection
        rw [List.isEmpty_iff] at hE
        have hsingle : record.connections = [c] :=
          erase_eq_nil_of_nodup hrnd hrne hE
        rw [hAS]
        refine ⟨?_, ?_, ?_, ?_⟩
        · exact hnd.sublist (keys_removeRec_sublist st.activeSensors h)
        · intro h' record' hlk'
          by_cases hh : h' = h
          · subst hh
            rw [lookupRec_removeRec_self hnd] at hlk'
            cases hlk'
          · rw [lookupRec_removeRec_ne hh] at hlk'
            obtain ⟨hne', hnd', hiff'⟩ := hrecs h' record' hlk'
            refine ⟨hne', hnd', ?_⟩
            intro x
            rw [hsubs x]
            by_cases hx : x = c
            · subst hx
              rw [if_pos rfl, List.mem_erase_of_ne hh]
              exact hiff' x
            · rw [if_neg hx]
              exact hiff' x
        · intro x h' hx'
          rw [hsubs x] at hx'
          by_cases hx : x = c
          · rw [if_pos hx] at hx'
            have hne' := ((hsubnd c).mem_erase_iff.mp hx').1
            have hmem := ((hsubnd c).mem_erase_iff.mp hx').2
            rw [lookupRec_removeRec_ne hne']
            exact hback c h' hmem
          · rw [if_neg hx] at hx'
            have hne' : h' ≠ h := by
              intro hc
              subst hc
              have : x ∈ record.connections := (hriff x).mpr hx'
              rw [hsingle] at this
              simp at this
              exact hx this
            rw [lookupRec_removeRec_ne hne']
            exact hback x h' hx'
        · intro x
          rw [hsubs x]
          by_cases hx : x = c
          · rw [if_pos hx]
            exact (hsubnd c).erase h
          · rw [if_neg hx]
            exact hsubnd x
    · next hE =>
        -- the record survives without this connection
        have hE' : record.connections.erase c ≠ [] := by
          intro hc
          rw [hc] at hE
          exact hE rfl
        rw [hAS]
        refine ⟨?_, ?_, ?_, ?_⟩
        · rw [keys_updateRec]
          exact hnd
        · intro h' record' hlk'
          by_cases hh : h' = h
          · subst hh
            rw [lookupRec_updateRec_self _ hrec] at hlk'
            obtain rfl : (⟨record.connections.erase c⟩ : SensorRecord) =
                record' := Option.some.inj hlk'
            refine ⟨by simpa using hE', hrnd.erase c, ?_⟩
            intro x
            show x ∈ record.connections.erase c ↔ _
            rw [hsubs x, hrnd.mem_erase_iff]
            by_cases hx : x = c
            · rw [if_pos hx, hx]
              simp only [ne_eq, not_true_eq_false, false_and, false_iff]
              exact (hsubnd c).not_mem_erase
            · rw [if_neg hx]
              constructor
              · intro hmem
                exact (hriff x).mp hmem.2
              · intro hmem
                exact ⟨hx, (hriff x).mpr hmem⟩
          · rw [lookupRec_updateRec_ne _ hh] at hlk'
            obtain ⟨hne', hnd', hiff'⟩ := hrecs h' record' hlk'
            refine ⟨hne', hnd', ?_⟩
            intro x
            rw [hsubs x]
            by_cases hx : x = c
            · subst hx
              rw [if_pos rfl, List.mem_erase_of_ne hh]
              exact hiff' x
            · rw [if_neg hx]
              exact hiff' x
        · intro x h' hx'
          rw [hsubs x] at hx'
          by_cases hh : h' = h
          · subst hh
            rw [lookupRec_updateRec_self _ hrec]
            simp
          · rw [lookupRec_updateRec_ne _ hh]
            by_cases hx : x = c
            · rw [if_pos hx] at hx'
              exact hback c h' ((hsubnd c).mem_erase_iff.mp hx').2
            · rw [if_neg hx] at hx'
              exact hback x h' hx'
        · intro x
          rw [hsubs x]
          by_cases hx : x = c
          · rw [if_pos hx]
            exact (hsubnd c).erase h
          · rw [if_neg hx]
            exact hsubnd x

theorem checkWakeLockStateLocked_parts (st : ServiceState) :
    (checkWakeLockStateLocked st).1.activeSensors = st.activeSensors ∧
    (checkWakeLockStateLocked st).1.connState = st.connState := by
  unfold checkWakeLockStateLocked
  split
  · exact ⟨rfl, rfl⟩
  · split
    · exact ⟨rfl, rfl⟩
    · exact ⟨rfl, rfl⟩

theorem enableReplaySend_parts (sensors : SensorRegistry) (st : ServiceState)
    (c : ConnId) (ev : SensorsEvent) :
    (enableReplaySend sensors st c ev).1.activeSensors = st.activeSensors ∧
    ∀ x, ((enableReplaySend sensors st c ev).1.connState x).subscribed =
      (st.connState x).subscribed := by
  unfold enableReplaySend
  dsimp only
  constructor
  · split <;> split <;>
      (try rw [(checkWakeLockStateLocked_parts _).1]) <;> rfl
  · intro x
    split <;> split <;>
        (try rw [(checkWakeLockStateLocked_parts _).2]) <;>
      by_cases hx : x = c <;> simp [setConn, connSendEvents, hx]

theorem enableOnChangeReplay_cases (sensors : SensorRegistry)
    (st : ServiceState) (c : ConnId) (h : Handle) :
    enableOnChangeReplay sensors st c h = (st, []) ∨
    ∃ ev, enableOnChangeReplay sensors st c h =
      enableReplaySend sensors st c ev := by
  unfold enableOnChangeReplay
  rcases hr : st.recent h with _ | entry
  · left
    rfl
  · by_cases hstale : entry.stale = true
    · left
      show (if entry.stale = true then ((st, []) : ServiceState × List DispatchAction)
        else if ({ entry.ev with sensor := h } : SensorsEvent).version = EVENT_VERSION
          then enableReplaySend sensors st c { entry.ev with sensor := h }
          else (st, [])) = (st, [])
      rw [if_pos hstale]
    · by_cases hver :
        ({ entry.ev with sensor := h } : SensorsEvent).version = EVENT_VERSION
      · right
        refine ⟨{ entry.ev with sensor := h }, ?_⟩
        show (if entry.stale = true then ((st, []) : ServiceState × List DispatchAction)
          else if ({ entry.ev with sensor := h } : SensorsEvent).version = EVENT_VERSION
            then enableReplaySend sensors st c { entry.ev with sensor := h }
            else (st, [])) = enableReplaySend sensors st c { entry.ev with sensor := h }
        rw [if_neg hstale, if_pos hver]
      · left
        show (if entry.stale = true then ((st, []) : ServiceState × List DispatchAction)
          else if ({ entry.ev with sensor := h } : SensorsEvent).version = EVENT_VERSION
            then enableReplaySend sensors st c { entry.ev with sensor := h }
            else (st, [])) = (st, [])
        rw [if_neg hstale, if_neg hver]

theorem enableOnChangeReplay_parts (sensors : SensorRegistry)
    (st : ServiceState) (c : ConnId) (h : Handle) :
    (enableOnChangeReplay sensors st c h).1.activeSensors = st.activeSensors ∧
    ∀ x, ((enableOnChangeReplay sensors st c h).1.connState x).subscribed =
      (st.connState x).subscribed := by
  rcases enableOnChangeReplay_cases sensors st c h with hE | ⟨ev, hE⟩
  · rw [hE]
    exact ⟨rfl, fun x => rfl⟩
  · rw [hE]
    exact enableReplaySend_parts sensors st c ev

theorem markRecentStale_connState (st : ServiceState) (h : Handle) :
    (markRecentStale st h).connState = st.connState := by
  unfold markRecentStale
  rcases hr : st.recent h with _ | entry <;> rfl

theorem enableNewRecord_connState (info : SensorInfo) (st : ServiceState)
    (c : ConnId) (h : Handle) :
    (enableNewRecord info st c h).connState = st.connState := by
  unfold enableNewRecord
  by_cases hoc : info.reportingMode = SensorReportingMode.onChange <;>
    by_cases hv : info.isVirtual = true <;>
      simp [hoc, hv, markRecentStale_connState]

theorem enableAddSensor_eq_self {st : ServiceState} {c : ConnId} {h : Handle}
    (hs : h ∈ (st.connState c).subscribed) : enableAddSensor st c h = st := by
  simp [enableAddSensor, hs]

theorem enableAddSensor_not_mem {st : ServiceState} {c : ConnId} {h : Handle}
    (hns : h ∉ (st.connState c).subscribed) :
    (enableAddSensor st c h).activeSensors = st.activeSensors ∧
    (enableAddSensor st c h).connState = fun x =>
      if x = c then
        { st.connState c with subscribed := h :: (st.connState c).subscribed }
      else st.connState x := by
  refine ⟨?_, ?_⟩ <;> simp [enableAddSensor, setConn, hns]

theorem wf_addSensor_fresh (st r : ServiceState) (c : ConnId) (h : Handle)
    (hrec : lookupRec st.activeSensors h = none)
    (hwf : recordsWellFormed st)
    (hAS : r.activeSensors = (h, (⟨[c]⟩ : SensorRecord)) :: st.activeSensors)
    (hCS : ∀ x, (r.connState x).subscribed = (st.connState x).subscribed) :
    recordsWellFormed (enableAddSensor r c h) := by
  obtain ⟨hnd, hrecs, hback, hsubnd⟩ := hwf
  have hnotin : ∀ x, h ∉ (st.connState x).subscribed :=
    fun x hx => hback x h hx hrec
  have hns : h ∉ (r.connState c).subscribed := by
    rw [hCS c]
    exact hnotin c
  obtain ⟨hA2, hC2⟩ := enableAddSensor_not_mem hns
  have hASF : (enableAddSensor r c h).activeSensors =
      (h, (⟨[c]⟩ : SensorRecord)) :: st.activeSensors := by
    rw [hA2, hAS]
  have hsubsF : ∀ x, ((enableAddSensor r c h).connState x).subscribed =
      if x = c then h :: (st.connState c).subscribed
      else (st.connState x).subscribed := by
    intro x
    rw [hC2]
    by_cases hx : x = c <;> simp [hx, hCS c, hCS x]
  refine ⟨?_, ?_, ?_, ?_⟩
  · rw [hASF]
    simp only [List.map_cons]
    exact List.nodup_cons.mpr ⟨lookupRec_eq_none_iff.mp hrec, hnd⟩
  · intro h' record' hlk'
    rw [hASF] at hlk'
    have hlk2 : (if h = h' then some (⟨[c]⟩ : SensorRecord)
        else lookupRec st.activeSensors h') = some record' := hlk'
    by_cases hh : h = h'
    · rw [if_pos hh] at hlk2
      obtain rfl := Option.some.inj hlk2
      refine ⟨by simp, by simp, ?_⟩
      rw [← hh]
      intro x
      rw [hsubsF x]
      by_cases hx : x = c <;> simp [hx, hnotin x]
    · rw [if_neg hh] at hlk2
      obtain ⟨hne', hnd', hiff'⟩ := hrecs h' record' hlk2
      refine ⟨hne', hnd', ?_⟩
      intro x
      rw [hsubsF x]
      by_cases hx : x = c
      · rw [if_pos hx, hx]
        rw [hiff' c]
        have hne2 : h' ≠ h := fun hc => hh hc.symm
        simp [hne2]
      · rw [if_neg hx]
        exact hiff' x
  · intro x h' hx'
    rw [hsubsF x] at hx'
    rw [hASF]
    show (if h = h' then some (⟨[c]⟩ : SensorRecord)
      else lookupRec st.activeSensors h') ≠ none
    by_cases hh : h = h'
    · rw [if_pos hh]
      simp
    · rw [if_neg hh]
      by_cases hx : x = c
      · rw [if_pos hx] at hx'
        rcases List.mem_cons.mp hx' with h1 | h1
        · exact absurd h1.symm hh
        · exact hback c h' h1
      · rw [if_neg hx] at hx'
        exact hback x h' hx'
  · intro x
    rw [hsubsF x]
    by_cases hx : x = c
    · rw [if_pos hx]
      exact List.nodup_cons.mpr ⟨hnotin c, hsubnd c⟩
    · rw [if_neg hx]
      exact hsubnd x

theorem wf_addSensor_existing (st r : ServiceState) (c : ConnId) (h : Handle)
    (record : SensorRecord)
    (hrec : lookupRec st.activeSensors h = some record)
    (hwf : recordsWellFormed st)
    (hcm : c ∉ record.connections)
    (hAS : r.activeSensors =
      updateRec st.activeSensors h ⟨c :: record.connections⟩)
    (hCS : ∀ x, (r.connState x).subscribed = (st.connState x).subscribed) :
    recordsWellFormed (enableAddSensor r c h) := by
  obtain ⟨hnd, hrecs, hback, hsubnd⟩ := hwf
  obtain ⟨hrne, hrnd, hriff⟩ := hrecs h record hrec
  have hnotin : h ∉ (st.connState c).subscribed :=
    fun hx => hcm ((hriff c).mpr hx)
  have hns : h ∉ (r.connState c).subscribed := by
    rw [hCS c]
    exact hnotin
  obtain ⟨hA2, hC2⟩ := enableAddSensor_not_mem hns
  have hASF : (enableAddSensor r c h).activeSensors =
      updateRec st.activeSensors h ⟨c :: record.connections⟩ := by
    rw [hA2, hAS]
  have hsubsF : ∀ x, ((enableAddSensor r c h).connState x).subscribed =
      if x = c then h :: (st.connState c).subscribed
      else (st.connState x).subscribed := by
    intro x
    rw [hC2]
    by_cases hx : x = c <;> simp [hx, hCS c, hCS x]
  refine ⟨?_, ?_, ?_, ?_⟩
  · rw [hASF, keys_updateRec]
    exact hnd
  · intro h' record' hlk'
    rw [hASF] at hlk'
    by_cases hh : h' = h
    · rw [hh, lookupRec_updateRec_self (⟨c :: record.connections⟩ : SensorRecord)
        hrec] at hlk'
      obtain rfl := Option.some.inj hlk'
      refine ⟨by simp, List.nodup_cons.mpr ⟨hcm, hrnd⟩, ?_⟩
      rw [hh]
      intro x
      rw [hsubsF x]
      by_cases hx : x = c
      · rw [if_pos hx, hx]
        simp
      · rw [if_neg hx]
        show x ∈ c :: record.connections ↔ h ∈ (st.connState x).subscribed
        simp [hx, hriff x]
    · rw [lookupRec_updateRec_ne _ hh] at hlk'
      obtain ⟨hne', hnd', hiff'⟩ := hrecs h' record' hlk'
      refine ⟨hne', hnd', ?_⟩
      intro x
      rw [hsubsF x]
      by_cases hx : x = c
      · rw [if_pos hx, hx]
        rw [hiff' c]
        simp [hh]
      · rw [if_neg hx]
        exact hiff' x
  · intro x h' hx'
    rw [hsubsF x] at hx'
    rw [hASF]
    by_cases hh : h' = h
    · rw [hh, lookupRec_updateRec_self (⟨c :: record.connections⟩ : SensorRecord)
        hrec]
      simp
    · rw [lookupRec_updateRec_ne _ hh]
      by_cases hx : x = c
      · rw [if_pos hx] at hx'
        rcases List.mem_cons.mp hx' with h1 | h1
        · exact absurd h1 hh
        · exact hback c h' h1
      · rw [if_neg hx] at hx'
        exact hback x h' hx'
  · intro x
    rw [hsubsF x]
    by_cases hx : x = c
    · rw [if_pos hx]
      exact List.nodup_cons.mpr ⟨hnotin, hsubnd c⟩
    · rw [if_neg hx]
      exact hsubnd x

theorem enable_phase_preserves (sensors : SensorRegistry) (info : SensorInfo)
    (st : ServiceState) (c : ConnId) (h : Handle)
    (hwf : recordsWellFormed st) :
    recordsWellFormed
      (enableAddSensor (enableRecordPhase sensors info st c h).1 c h) := by
  rcases hrec : lookupRec st.activeSensors h with _ | record
  · rw [enableRecordPhase_eq_none hrec]
    exact wf_addSensor_fresh st (enableNewRecord info st c h) c h hrec hwf
      (enableNewRecord_activeSensors info st c h)
      (fun x => by rw [enableNewRecord_connState])
  · by_cases hcm : c ∈ record.connections
    · rw [enableRecordPhase_eq_some hrec, if_pos hcm]
      show recordsWellFormed (enableAddSensor st c h)
      obtain ⟨hnd, hrecs, hback, hsubnd⟩ := hwf
      obtain ⟨hrne, hrnd, hriff⟩ := hrecs h record hrec
      rw [enableAddSensor_eq_self ((hriff c).mp hcm)]
      exact ⟨hnd, hrecs, hback, hsubnd⟩
    · rw [enableRecordPhase_eq_some hrec, if_neg hcm]
      refine wf_addSensor_existing st _ c h record hrec hwf hcm ?_ ?_
      · dsimp only
        by_cases hoc : info.reportingMode = SensorReportingMode.onChange
        · rw [if_pos hoc]
          exact (enableOnChangeReplay_parts sensors
            { st with activeSensors :=
                updateRec st.activeSensors h ⟨c :: record.connections⟩ } c h).1
        · rw [if_neg hoc]
      · intro x
        dsimp only
        by_cases hoc : info.reportingMode = SensorReportingMode.onChange
        · rw [if_pos hoc]
          exact (enableOnChangeReplay_parts sensors
            { st with activeSensors :=
                updateRec st.activeSensors h ⟨c :: record.connections⟩ } c h).2 x
        · rw [if_neg hoc]

theorem enable_preserves (sensors : SensorRegistry) (st : ServiceState)
    (c : ConnId) (h : Handle) (accessOk halBatchOk halActivateOk : Bool)
    (hwf : recordsWellFormed st) :
    recordsWellFormed
      (enable sensors st c h accessOk halBatchOk halActivateOk).1 := by
  unfold enable
  rcases hs : sensors h with _ | info
  · exact hwf
  · show recordsWellFormed
      ((if accessOk = false then (st, Status.BAD_VALUE, ([] : List DispatchAction))
        else if enableModeGateBlocks st.mode st.allowListedPackage
            (st.connState c).package then
          (st, Status.INVALID_OPERATION, [])
        else
          let p := enableRecordPhase sensors info st c h
          let st2 := enableAddSensor p.1 c h
          if halBatchOk && halActivateOk then (st2, Status.NO_ERROR, p.2)
          else ((cleanupWithoutDisableLocked st2 c h).1, Status.UNKNOWN_ERROR,
            p.2)).1)
    by_cases hacc : accessOk = false
    · rw [if_pos hacc]
      exact hwf
    · rw [if_neg hacc]
      by_cases hgate : enableModeGateBlocks st.mode st.allowListedPackage
          (st.connState c).package = true
      · rw [if_pos hgate]
        exact hwf
      · rw [if_neg hgate]
        dsimp only
        by_cases hok : (halBatchOk && halActivateOk) = true
        · rw [if_pos hok]
          exact enable_phase_preserves sensors info st c h hwf
        · rw [if_neg hok]
          exact cleanupWithoutDisable_preserves _ c h
            (enable_phase_preserves sensors info st c h hwf)

theorem cleanupAutoDisabled_preserves (sensors : SensorRegistry) (c : ConnId)
    (buffer : List SensorsEvent) (st : ServiceState)
    (hwf : recordsWellFormed st) :
    recordsWellFormed (cleanupAutoDisabledSensorLocked sensors st c buffer) := by
  induction buffer generalizing st with
  | nil => exact hwf
  | cons e rest ih =>
      have hstep : cleanupAutoDisabledSensorLocked sensors st c (e :: rest) =
          cleanupAutoDisabledSensorLocked sensors
            (if sensorEventHandle e ∈ (st.connState c).subscribed then
              match sensors (sensorEventHandle e) with
              | some si =>
                  if si.reportingMode = SensorReportingMode.oneShot then
                    (cleanupWithoutDisableLocked st c (sensorEventHandle e)).1
                  else st
              | none => st
            else st) c rest := rfl
      rw [hstep]
      apply ih
      by_cases hmem : sensorEventHandle e ∈ (st.connState c).subscribed
      · rw [if_pos hmem]
        rcases hsens : sensors (sensorEventHandle e) with _ | si
        · exact hwf
        · show recordsWellFormed
            (if si.reportingMode = SensorReportingMode.oneShot then
              (cleanupWithoutDisableLocked st c (sensorEventHandle e)).1
            else st)
          by_cases hone : si.reportingMode = SensorReportingMode.oneShot
          · rw [if_pos hone]
            exact cleanupWithoutDisable_preserves st c _ hwf
          · rw [if_neg hone]
            exact hwf
      · rw [if_neg hmem]
        exact hwf

theorem cleanupConnectionRecords_spec (c : ConnId) :
    ∀ (l : List (Handle × SensorRecord)) (cs : ConnState)
      (virt : List Handle),
    (l.map Prod.fst).Nodup → cs.subscribed.Nodup →
    List.Sublist ((cleanupConnectionRecords c l cs virt).1.map Prod.fst)
        (l.map Prod.fst) ∧
    (∀ h, lookupRec (cleanupConnectionRecords c l cs virt).1 h =
      (match lookupRec l h with
       | none => none
       | some record =>
           if (record.connections.erase c).isEmpty then none
           else some ⟨record.connections.erase c⟩)) ∧
    (∀ x, x ∈ (cleanupConnectionRecords c l cs virt).2.1.subscribed ↔
      x ∈ cs.subscribed ∧ x ∉ l.map Prod.fst) ∧
    (cleanupConnectionRecords c l cs virt).2.1.subscribed.Nodup := by
  intro l
  induction l with
  | nil =>
      intro cs virt hknd hcnd
      refine ⟨by simp [cleanupConnectionRecords], ?_, ?_, hcnd⟩
      · intro h
        rfl
      · intro x
        simp [cleanupConnectionRecords]
  | cons p rest ih =>
      obtain ⟨h0, record0⟩ := p
      intro cs virt hknd hcnd
      have hknd' : (h0 :: rest.map Prod.fst).Nodup := hknd
      obtain ⟨hknd0, hkndr⟩ := List.nodup_cons.mp hknd'
      have hstep : cleanupConnectionRecords c ((h0, record0) :: rest) cs virt =
          (if (record0.connections.erase c).isEmpty then
            cleanupConnectionRecords c rest
              (if h0 ∈ cs.subscribed then
                { cs with subscribed := cs.subscribed.erase h0 } else cs)
              (virt.erase h0)
          else
            ((h0, (⟨record0.connections.erase c⟩ : SensorRecord)) ::
                (cleanupConnectionRecords c rest
                  (if h0 ∈ cs.subscribed then
                    { cs with subscribed := cs.subscribed.erase h0 } else cs)
                  virt).1,
              (cleanupConnectionRecords c rest
                (if h0 ∈ cs.subscribed then
                  { cs with subscribed := cs.subscribed.erase h0 } else cs)
                virt).2.1,
              (cleanupConnectionRecords c rest
                (if h0 ∈ cs.subscribed then
                  { cs with subscribed := cs.subscribed.erase h0 } else cs)
                virt).2.2)) := rfl
      have hmem1 : ∀ x, x ∈ (if h0 ∈ cs.subscribed then
          { cs with subscribed := cs.subscribed.erase h0 } else cs).subscribed ↔
          x ∈ cs.subscribed ∧ x ≠ h0 := by
        intro x
        by_cases hin : h0 ∈ cs.subscribed
        · rw [if_pos hin]
          show x ∈ cs.subscribed.erase h0 ↔ _
          rw [hcnd.mem_erase_iff]
          exact ⟨fun hp => ⟨hp.2, hp.1⟩, fun hp => ⟨hp.2, hp.1⟩⟩
        · rw [if_neg hin]
          constructor
          · intro hx
            exact ⟨hx, fun hc => hin (hc ▸ hx)⟩
          · intro hx
            exact hx.1
      have hnd1 : (if h0 ∈ cs.subscribed then
          { cs with subscribed := cs.subscribed.erase h0 } else cs).subscribed.Nodup := by
        by_cases hin : h0 ∈ cs.subscribed
        · rw [if_pos hin]
          exact hcnd.erase h0
        · rw [if_neg hin]
          exact hcnd
      by_cases hE : (record0.connections.erase c).isEmpty = true
      · rw [hstep, if_pos hE]
        obtain ⟨iha, ihb, ihc, ihd⟩ := ih
          (if h0 ∈ cs.subscribed then
            { cs with subscribed := cs.subscribed.erase h0 } else cs)
          (virt.erase h0) hkndr hnd1
        refine ⟨iha.trans (List.sublist_cons_self h0 _), ?_, ?_, ihd⟩
        · intro h
          by_cases hh : h0 = h
          · have hnone : lookupRec (cleanupConnectionRecords c rest
                (if h0 ∈ cs.subscribed then
                  { cs with subscribed := cs.subscribed.erase h0 } else cs)
                (virt.erase h0)).1 h = none := by
              rw [lookupRec_eq_none_iff]
              intro hc
              have hmem0 : h0 ∈ rest.map Prod.fst := by
                rw [hh]
                exact iha.subset hc
              exact hknd0 hmem0
            rw [hnone]
            have hlk : lookupRec ((h0, record0) :: rest) h = some record0 := by
              show (if h0 = h then some record0 else lookupRec rest h) =
                some record0
              rw [if_pos hh]
            rw [hlk]
            show none = (if (record0.connections.erase c).isEmpty then none
              else some (⟨record0.connections.erase c⟩ : SensorRecord))
            rw [if_pos hE]
          · rw [ihb h]
            have hlk : lookupRec ((h0, record0) :: rest) h = lookupRec rest h := by
              show (if h0 = h then some record0 else lookupRec rest h) = _
              rw [if_neg hh]
            rw [hlk]
        · intro x
          rw [ihc x, hmem1 x]
          constructor
          · rintro ⟨⟨hx1, hx2⟩, hx3⟩
            refine ⟨hx1, ?_⟩
            intro hc
            have hc' : x ∈ h0 :: rest.map Prod.fst := hc
            rcases List.mem_cons.mp hc' with h1 | h1
            · exact hx2 h1
            · exact hx3 h1
          · rintro ⟨hx1, hx2⟩
            have hx2' : x ∉ h0 :: rest.map Prod.fst := hx2
            refine ⟨⟨hx1, ?_⟩, ?_⟩
            · intro hc
              exact hx2' (by rw [hc]; exact List.mem_cons_self _ _)
            · intro hc
              exact hx2' (List.mem_cons_of_mem _ hc)
      · rw [hstep, if_neg hE]
        obtain ⟨iha, ihb, ihc, ihd⟩ := ih
          (if h0 ∈ cs.subscribed then
            { cs with subscribed := cs.subscribed.erase h0 } else cs)
          virt hkndr hnd1
        refine ⟨?_, ?_, ?_, ihd⟩
        · exact iha.cons₂ h0
        · intro h
          dsimp only
          by_cases hh : h0 = h
          · have hL : lookupRec ((h0, (⟨record0.connections.erase c⟩ :
                SensorRecord)) ::
                (cleanupConnectionRecords c rest
                  (if h0 ∈ cs.subscribed then
                    { cs with subscribed := cs.subscribed.erase h0 } else cs)
                  virt).1) h = some ⟨record0.connections.erase c⟩ := by
              simp [lookupRec, hh]
            have hR : lookupRec ((h0, record0) :: rest) h = some record0 := by
              simp [lookupRec, hh]
            rw [hL, hR]
            show some (⟨record0.connections.erase c⟩ : SensorRecord) =
              if (record0.connections.erase c).isEmpty then none
              else some (⟨record0.connections.erase c⟩ : SensorRecord)
            rw [if_neg hE]
          · have hL : lookupRec ((h0, (⟨record0.connections.erase c⟩ :
                SensorRecord)) ::
                (cleanupConnectionRecords c rest
                  (if h0 ∈ cs.subscribed then
                    { cs with subscribed := cs.subscribed.erase h0 } else cs)
                  virt).1) h =
                lookupRec (cleanupConnectionRecords c rest
                  (if h0 ∈ cs.subscribed then
                    { cs with subscribed := cs.subscribed.erase h0 } else cs)
                  virt).1 h := by
              simp [lookupRec, hh]
            have hR : lookupRec ((h0, record0) :: rest) h = lookupRec rest h := by
              simp [lookupRec, hh]
            rw [hL, hR, ihb h]
        · intro x
          dsimp only
          rw [ihc x, hmem1 x]
          constructor
          · rintro ⟨⟨hx1, hx2⟩, hx3⟩
            refine ⟨hx1, ?_⟩
            intro hc
            have hc' : x ∈ h0 :: rest.map Prod.fst := hc
            rcases List.mem_cons.mp hc' with h1 | h1
            · exact hx2 h1
            · exact hx3 h1
          · rintro ⟨hx1, hx2⟩
            have hx2' : x ∉ h0 :: rest.map Prod.fst := hx2
            refine ⟨⟨hx1, ?_⟩, ?_⟩
            · intro hc
              exact hx2' (by rw [hc]; exact List.mem_cons_self _ _)
            · intro hc
              exact hx2' (List.mem_cons_of_mem _ hc)

theorem cleanupConnection_fields (st : ServiceState) (c : ConnId) :
    (cleanupConnection st c).activeSensors =
      (cleanupConnectionRecords c st.activeSensors (st.connState c)
        st.activeVirtualSensors).1 ∧
    ∀ x, (cleanupConnection st c).connState x =
      if x = c then
        (cleanupConnectionRecords c st.activeSensors (st.connState c)
          st.activeVirtualSensors).2.1
      else st.connState x := by
  constructor
  · unfold cleanupConnection
    dsimp only
    split
    · rw [(checkWakeLockStateLocked_parts _).1]
      rfl
    · rfl
  · intro x
    unfold cleanupConnection
    dsimp only
    split
    · rw [(checkWakeLockStateLocked_parts _).2]
      show (if x = c then _ else st.connState x) = _
      rfl
    · show (if x = c then _ else st.connState x) = _
      rfl

theorem cleanupConnection_preserves (st : ServiceState) (c : ConnId)
    (hwf : recordsWellFormed st) :
    recordsWellFormed (cleanupConnection st c) := by
  obtain ⟨hnd, hrecs, hback, hsubnd⟩ := hwf
  obtain ⟨sa, sb, sc', sd⟩ := cleanupConnectionRecords_spec c st.activeSensors
    (st.connState c) st.activeVirtualSensors hnd (hsubnd c)
  obtain ⟨hFa, hFc⟩ := cleanupConnection_fields st c
  refine ⟨?_, ?_, ?_, ?_⟩
  · rw [hFa]
    exact hnd.sublist sa
  · intro h record' hlk'
    rw [hFa, sb h] at hlk'
    rcases hrec : lookupRec st.activeSensors h with _ | record
    · rw [hrec] at hlk'
      exact Option.noConfusion hlk'
    · rw [hrec] at hlk'
      have hlk2 : (if (record.connections.erase c).isEmpty then none
          else some (⟨record.connections.erase c⟩ : SensorRecord)) =
          some record' := hlk'
      by_cases hE : (record.connections.erase c).isEmpty = true
      · rw [if_pos hE] at hlk2
        exact Option.noConfusion hlk2
      · rw [if_neg hE] at hlk2
        obtain rfl := Option.some.inj hlk2
        obtain ⟨hrne, hrnd, hriff⟩ := hrecs h record hrec
        refine ⟨?_, hrnd.erase c, ?_⟩
        · intro hc
          have hc' : record.connections.erase c = [] := hc
          exact hE (by rw [hc']; rfl)
        · intro x
          show x ∈ record.connections.erase c ↔
            h ∈ ((cleanupConnection st c).connState x).subscribed
          rw [hFc x]
          by_cases hx : x = c
          · rw [if_pos hx, hx]
            constructor
            · intro hmem
              exact absurd hmem hrnd.not_mem_erase
            · intro hmem
              exact absurd (lookupRec_mem_keys hrec) ((sc' h).mp hmem).2
          · rw [if_neg hx]
            rw [hrnd.mem_erase_iff]
            constructor
            · rintro ⟨hxc, hxm⟩
              exact (hriff x).mp hxm
            · intro hxm
              exact ⟨hx, (hriff x).mpr hxm⟩
  · intro x h' hx'
    rw [hFc x] at hx'
    rw [hFa, sb h']
    by_cases hx : x = c
    · rw [if_pos hx] at hx'
      obtain ⟨hmem, hnk⟩ := (sc' h').mp hx'
      exfalso
      rcases hlk : lookupRec st.activeSensors h' with _ | r0
      · exact hback c h' hmem hlk
      · exact hnk (lookupRec_mem_keys hlk)
    · rw [if_neg hx] at hx'
      rcases hlk : lookupRec st.activeSensors h' with _ | r0
      · exact absurd hlk (hback x h' hx')
      · obtain ⟨hrne0, hrnd0, hriff0⟩ := hrecs h' r0 hlk
        have hxm : x ∈ r0.connections := (hriff0 x).mpr hx'
        have hxe : x ∈ r0.connections.erase c := by
          rw [hrnd0.mem_erase_iff]
          exact ⟨hx, hxm⟩
        have hEne : ¬((r0.connections.erase c).isEmpty = true) := by
          intro hc
          rw [List.isEmpty_iff] at hc
          rw [hc] at hxe
          cases hxe
        show (if (r0.connections.erase c).isEmpty then none
          else some (⟨r0.connections.erase c⟩ : SensorRecord)) ≠ none
        rw [if_neg hEne]
        simp
  · intro x
    rw [hFc x]
    by_cases hx : x = c
    · rw [if_pos hx]
      exact sd
    · rw [if_neg hx]
      exact hsubnd x

theorem disable_destroys_iff (st : ServiceState) (c : ConnId) (h : Handle)
    {record : SensorRecord} (hwf : recordsWellFormed st)
    (hrec : lookupRec st.activeSensors h = some record) :
    lookupRec (disable st c h).1.activeSensors h = none ↔
      record.connections = [c] := by
  obtain ⟨hnd, hrecs, hback, hsubnd⟩ := hwf
  obtain ⟨hrne, hrnd, hriff⟩ := hrecs h record hrec
  show lookupRec (cleanupWithoutDisableLocked st c h).1.activeSensors h =
    none ↔ _
  unfold cleanupWithoutDisableLocked
  rw [hrec]
  show lookupRec (cleanupRecordUpdate (cleanupConnStateUpdate st c h) h
    record c).activeSensors h = none ↔ _
  unfold cleanupRecordUpdate
  by_cases hE : (record.connections.erase c).isEmpty = true
  · rw [if_pos hE]
    show lookupRec (removeRec (cleanupConnStateUpdate st c h).activeSensors h)
      h = none ↔ record.connections = [c]
    rw [(cleanupConnStateUpdate_fields st c h).1]
    exact ⟨fun _ => erase_eq_nil_of_nodup hrnd hrne (List.isEmpty_iff.mp hE),
      fun _ => lookupRec_removeRec_self hnd⟩
  · rw [if_neg hE]
    show lookupRec (updateRec (cleanupConnStateUpdate st c h).activeSensors h
      ⟨record.connections.erase c⟩) h = none ↔ record.connections = [c]
    rw [(cleanupConnStateUpdate_fields st c h).1]
    rw [lookupRec_updateRec_self (⟨record.connections.erase c⟩ : SensorRecord)
      hrec]
    constructor
    · intro hc
      exact Option.noConfusion hc
    · intro hc
      exfalso
      apply hE
      rw [hc]
      simp

/-- The four service operations C4 quantifies over: `enable`, `disable`,
one-shot auto-disable, and connection cleanup. -/
inductive ServiceOp
  | enableOp (c : ConnId) (h : Handle)
      (accessOk halBatchOk halActivateOk : Bool)
  | disableOp (c : ConnId) (h : Handle)
  | autoDisableOp (c : ConnId) (buffer : List SensorsEvent)
  | cleanupConnOp (c : ConnId)

def applyServiceOp (sensors : SensorRegistry) (st : ServiceState) :
    ServiceOp → ServiceState
  | .enableOp c h accessOk halBatchOk halActivateOk =>
      (enable sensors st c h accessOk halBatchOk halActivateOk).1
  | .disableOp c h => (disable st c h).1
  | .autoDisableOp c buffer => cleanupAutoDisabledSensorLocked sensors st c buffer
  | .cleanupConnOp c => cleanupConnection st c

/-- C4: in a well-formed service state, an Active Sensor Record for a
handle exists iff at least one Event Connection has the handle in its
subscription set; this well-formedness (hence the invariant) is
preserved by `enable`, `disable`, one-shot auto-disable and connection
cleanup; and `disable` destroys the record exactly when the removed
connection was its last owner. -/
theorem C4_theorem (sensors : SensorRegistry) (st : ServiceState)
    (op : ServiceOp) (hwf : recordsWellFormed st) :
    activeRecordInvariant st ∧
    recordsWellFormed (applyServiceOp sensors st op) ∧
    activeRecordInvariant (applyServiceOp sensors st op) ∧
    ∀ c h record, lookupRec st.activeSensors h = some record →
      (lookupRec (disable st c h).1.activeSensors h = none ↔
        record.connections = [c]) := by
  have hpres : recordsWellFormed (applyServiceOp sensors st op) := by
    cases op with
    | enableOp c h accessOk halBatchOk halActivateOk =>
        exact enable_preserves sensors st c h accessOk halBatchOk halActivateOk
          hwf
    | disableOp c h => exact cleanupWithoutDisable_preserves st c h hwf
    | autoDisableOp c buffer =>
        exact cleanupAutoDisabled_preserves sensors c buffer st hwf
    | cleanupConnOp c => exact cleanupConnection_preserves st c hwf
  exact ⟨recordsWellFormed_invariant hwf, hpres,
    recordsWellFormed_invariant hpres,
    fun c h record hrec => disable_destroys_iff st c h hwf hrec⟩

theorem C4_witness :
    recordsWellFormed
      (⟨[], [], (fun _ => ⟨[], 0, []⟩), [], (fun _ => none), false,
        OperatingMode.NORMAL, []⟩ : ServiceState) ∧
    (activeRecordInvariant
      (⟨[], [], (fun _ => ⟨[], 0, []⟩), [], (fun _ => none), false,
        OperatingMode.NORMAL, []⟩ : ServiceState) ∧
    recordsWellFormed
      (applyServiceOp
        (fun hh => if hh = (1 : Int) then
          some ⟨false, SensorReportingMode.continuous, false⟩ else none)
        (⟨[], [], (fun _ => ⟨[], 0, []⟩), [], (fun _ => none), false,
          OperatingMode.NORMAL, []⟩ : ServiceState)
        (ServiceOp.enableOp 0 1 true true true)) ∧
    activeRecordInvariant
      (applyServiceOp
        (fun hh => if hh = (1 : Int) then
          some ⟨false, SensorReportingMode.continuous, false⟩ else none)
        (⟨[], [], (fun _ => ⟨[], 0, []⟩), [], (fun _ => none), false,
          OperatingMode.NORMAL, []⟩ : ServiceState)
        (ServiceOp.enableOp 0 1 true true true)) ∧
    ∀ c h record,
      lookupRec
        (⟨[], [], (fun _ => ⟨[], 0, []⟩), [], (fun _ => none), false,
          OperatingMode.NORMAL, []⟩ : ServiceState).activeSensors h =
        some record →
      (lookupRec
          (disable
            (⟨[], [], (fun _ => ⟨[], 0, []⟩), [], (fun _ => none), false,
              OperatingMode.NORMAL, []⟩ : ServiceState) c h).1.activeSensors
          h = none ↔ record.connections = [c])) :=
  ⟨⟨List.nodup_nil, fun h record hlk => Option.noConfusion hlk,
      fun c h hx => absurd hx (List.not_mem_nil h), fun c => List.nodup_nil⟩,
    C4_theorem
      (fun hh => if hh = (1 : Int) then
        some ⟨false, SensorReportingMode.continuous, false⟩ else none)
      (⟨[], [], (fun _ => ⟨[], 0, []⟩), [], (fun _ => none), false,
        OperatingMode.NORMAL, []⟩ : ServiceState)
      (ServiceOp.enableOp 0 1 true true true)
      ⟨List.nodup_nil, fun h record hlk => Option.noConfusion hlk,
        fun c h hx => absurd hx (List.not_mem_nil h), fun c => List.nodup_nil⟩⟩

end SensorServiceModel
